import Mathlib

/-!
# freight_lite_teleop: joystick translation

A shallow embedding of `freight_lite_teleop_joy.cpp` (`getVal`, `sendAdjustSteeringMsg`,
`sendCmdVelMsg`, `send_stop_if_necessary`, `joyCallback`) and of the `ADJUST_WHEEL_*`
constants of `freight_lite_defines.h`.

Modelling conventions.
* A finite `float` or `double` is the rational `ℚ` it denotes. The one arithmetic
  operation of the source, the `float * double` product in `getVal`, is the exact product
  rounded to the nearest `double`, ties to even (`roundDouble`); the comparisons of the
  source are exact. Infinities and NaN are outside the model.
* The members of `Impl` read from parameters are the immutable `Config`; the two members
  written by the callbacks (`prev_enable`, `sent_disable_msg`) are the `State`.
* The two publishers are one output list of `Msg`, in publication order.
* An `int` index compared with `size()` or passed to `operator[]` is converted to the
  64-bit unsigned `size_t` (`toSizeT`); a read `v[i]` is `v[i]?`, so that a read outside
  the vector makes the callback return `none`.
-/

namespace FreightLiteTeleop

/-! ## `freight_lite_defines.h` -/

abbrev ADJUST_WHEEL_NONE : Int := 0
abbrev ADJUST_WHEEL_FR : Int := 1
abbrev ADJUST_WHEEL_FL : Int := 2
abbrev ADJUST_WHEEL_BR : Int := 3
abbrev ADJUST_WHEEL_BL : Int := 4
abbrev ADJUST_WHEEL_ALL_STRAIGHT : Int := 5
abbrev ADJUST_WHEEL_ALL_HORIZ : Int := 6
abbrev ADJUST_WHEEL_ALL_TWIST : Int := 7

/-! ## Messages -/

/-- The six fields of `geometry_msgs::Twist`. -/
structure Twist where
  linear_x : ℚ
  linear_y : ℚ
  linear_z : ℚ
  angular_x : ℚ
  angular_y : ℚ
  angular_z : ℚ
  deriving DecidableEq

/-- A default-constructed `geometry_msgs::Twist`: every field zero. -/
def Twist.zero : Twist := ⟨0, 0, 0, 0, 0, 0⟩

/-- One published message: a `Twist` on `cmd_vel` or an `Int16` on `adjust_steering`. -/
inductive Msg where
  | cmd_vel (t : Twist)
  | adjust_steering (data : Int)
  deriving DecidableEq

/-- The fields of `sensor_msgs::Joy` that the callback reads: `float32[] axes` (each value
the rational a `float` denotes) and `int32[] buttons`. -/
structure Joy where
  axes : List ℚ
  buttons : List Int

/-- The members of `Impl` that are set once, in the constructor, from parameters.
A `std::map` is its lookup function; `scale_linear_map[which]` on a missing key is the
empty map, which is the function that is `none` everywhere. -/
structure Config where
  enable_button : Int
  enable_horiz_button : Int
  enable_twist_button : Int
  axis_adjust_front : Int
  axis_adjust_back : Int
  axis_adjust_steering : Int
  axis_linear_map : String → Option Int
  scale_linear_map : String → String → Option ℚ
  axis_angular_map : String → Option Int
  scale_angular_map : String → String → Option ℚ

/-- The members of `Impl` written by the callbacks. -/
structure State where
  prev_enable : Int
  sent_disable_msg : Bool
  deriving DecidableEq

/-! ## Machine arithmetic -/

/-- The integer nearest to `q`, the even one of the two when `q` is halfway. -/
def roundHalfEven (q : ℚ) : Int :=
  if q - ⌊q⌋ < 1 / 2 then ⌊q⌋
  else if q - ⌊q⌋ > 1 / 2 then ⌊q⌋ + 1
  else if ⌊q⌋ % 2 = 0 then ⌊q⌋ else ⌊q⌋ + 1

/-- The exponent of the unit in the last place of `x` in the binary floating-point format
with `prec` significand bits and least exponent `emin`: `⌊log2 |x|⌋ - (prec - 1)` for a
normal `x`, and `emin` in the subnormal range. -/
def ulpExp (prec : Nat) (emin : Int) (x : ℚ) : Int :=
  max (Int.log 2 |x| - ((prec : Int) - 1)) emin

/-- IEEE 754 rounding to nearest, ties to even, of the real `x` into the binary format with
`prec` significand bits and least exponent `emin`. The exponent is not bounded above: a
result beyond the largest finite value, which the machine turns into an infinity, is
outside the model (it does not arise from an axis in [-1, 1] and a finite scale). -/
def roundBinary (prec : Nat) (emin : Int) (x : ℚ) : ℚ :=
  roundHalfEven (x / 2 ^ ulpExp prec emin x) * 2 ^ ulpExp prec emin x

/-- Rounding to `double` (binary64): 53 significand bits, least exponent -1074. -/
def roundDouble (x : ℚ) : ℚ := roundBinary 53 (-1074) x

/-- Rounding to `float` (binary32): 24 significand bits, least exponent -149. -/
def roundFloat (x : ℚ) : ℚ := roundBinary 24 (-149) x


/-- Implicit conversion of an `int` to the 64-bit `size_t`, as in `size() > index` and
in `operator[] (index)`. -/
def toSizeT (i : Int) : Nat := (i % 2 ^ 64).toNat

/-- Conversion of an `int` to the `int16` payload of `std_msgs::Int16`. -/
def toInt16 (i : Int) : Int := (i + 2 ^ 15) % 2 ^ 16 - 2 ^ 15

/-! ## The functions of `freight_lite_teleop_joy.cpp` -/

/-- Function `getVal`. The `float32` axis value is widened to `double` exactly and
multiplied by the `double` scale: the product is rounded to `double`. -/
def getVal (joy_msg : Joy) (axis_map : String → Option Int) (scale_map : String → Option ℚ)
    (fieldname : String) : Option ℚ :=
  match axis_map fieldname, scale_map fieldname with
  | some i, some k =>
    if joy_msg.axes.length ≤ toSizeT i then some 0
    else (joy_msg.axes[toSizeT i]?).map (fun a => roundDouble (a * k))
  | _, _ => some 0

/-- Method `sendAdjustSteeringMsg`: the messages it publishes. -/
def sendAdjustSteeringMsg (c : Config) (joy_msg : Joy) (wheel : Int) : Option (List Msg) :=
  (if wheel ≠ ADJUST_WHEEL_ALL_STRAIGHT ∧ wheel ≠ ADJUST_WHEEL_ALL_HORIZ
        ∧ wheel ≠ ADJUST_WHEEL_ALL_TWIST
        ∧ joy_msg.axes.length > toSizeT c.axis_adjust_steering then
      (joy_msg.axes[toSizeT c.axis_adjust_steering]?).map (fun delta =>
        if delta < -(1 / 2) then -1 * wheel
        else if delta > 1 / 2 then wheel
        else ADJUST_WHEEL_NONE)
    else some wheel).map (fun wheel =>
      if wheel ≠ ADJUST_WHEEL_NONE then [Msg.adjust_steering (toInt16 wheel)] else [])

/-- Method `sendCmdVelMsg`: the successor state and the message it publishes. -/
def sendCmdVelMsg (c : Config) (s : State) (joy_msg : Joy) (which_map : String) :
    Option (State × List Msg) := do
  let lx ← getVal joy_msg c.axis_linear_map (c.scale_linear_map which_map) "x"
  let ly ← getVal joy_msg c.axis_linear_map (c.scale_linear_map which_map) "y"
  let lz ← getVal joy_msg c.axis_linear_map (c.scale_linear_map which_map) "z"
  let az ← getVal joy_msg c.axis_angular_map (c.scale_angular_map which_map) "yaw"
  let ay ← getVal joy_msg c.axis_angular_map (c.scale_angular_map which_map) "pitch"
  let ax ← getVal joy_msg c.axis_angular_map (c.scale_angular_map which_map) "roll"
  pure ({ s with sent_disable_msg := false },
    [Msg.cmd_vel { linear_x := lx, linear_y := ly, linear_z := lz,
                   angular_x := ax, angular_y := ay, angular_z := az }])

/-- Method `send_stop_if_necessary`: the successor state and the messages it publishes. -/
def send_stop_if_necessary (c : Config) (s : State) (joy_msg : Joy) (new_enable : Int) :
    Option (State × List Msg) :=
  if s.prev_enable ≠ new_enable then do
    let adj ←
      if new_enable = c.enable_button then
        sendAdjustSteeringMsg c joy_msg ADJUST_WHEEL_ALL_STRAIGHT
      else if new_enable = c.enable_horiz_button then
        sendAdjustSteeringMsg c joy_msg ADJUST_WHEEL_ALL_HORIZ
      else if new_enable = c.enable_twist_button then
        sendAdjustSteeringMsg c joy_msg ADJUST_WHEEL_ALL_TWIST
      else pure []
    pure ({ prev_enable := new_enable, sent_disable_msg := true },
      adj ++ [Msg.cmd_vel Twist.zero])
  else pure ({ s with prev_enable := new_enable }, [])

/-- The condition `joy_msg->buttons.size() > index && joy_msg->buttons[index]`. -/
def buttonCond (joy_msg : Joy) (index : Int) : Option Bool :=
  if joy_msg.buttons.length > toSizeT index then
    (joy_msg.buttons[toSizeT index]?).map (fun b => decide (b ≠ 0))
  else some false

/-- The condition `joy_msg->axes.size() > index && joy_msg->axes[index] != 0.0`. -/
def axisCond (joy_msg : Joy) (index : Int) : Option Bool :=
  if joy_msg.axes.length > toSizeT index then
    (joy_msg.axes[toSizeT index]?).map (fun a => decide (a ≠ 0))
  else some false

/-- Method `joyCallback`: the successor state and the messages published, in order. -/
def joyCallback (c : Config) (s : State) (joy_msg : Joy) : Option (State × List Msg) := do
  let drive ← buttonCond joy_msg c.enable_button
  if drive then do
    let (s1, o1) ← send_stop_if_necessary c s joy_msg c.enable_button
    let (s2, o2) ← sendCmdVelMsg c s1 joy_msg "normal"
    pure (s2, o1 ++ o2)
  else do
  let horiz ← buttonCond joy_msg c.enable_horiz_button
  if horiz then do
    let (s1, o1) ← send_stop_if_necessary c s joy_msg c.enable_horiz_button
    let (s2, o2) ← sendCmdVelMsg c s1 joy_msg "normal"
    pure (s2, o1 ++ o2)
  else do
  let twist ← buttonCond joy_msg c.enable_twist_button
  if twist then do
    let (s1, o1) ← send_stop_if_necessary c s joy_msg c.enable_twist_button
    let (s2, o2) ← sendCmdVelMsg c s1 joy_msg "normal"
    pure (s2, o1 ++ o2)
  else do
  let front ← axisCond joy_msg c.axis_adjust_front
  if front then do
    let (s1, o1) ← send_stop_if_necessary c s joy_msg c.axis_adjust_front
    let a ← joy_msg.axes[toSizeT c.axis_adjust_front]?
    let o2 ←
      if a > 0 then sendAdjustSteeringMsg c joy_msg ADJUST_WHEEL_FL
      else if a < 0 then sendAdjustSteeringMsg c joy_msg ADJUST_WHEEL_FR
      else pure []
    pure (s1, o1 ++ o2)
  else do
  let back ← axisCond joy_msg c.axis_adjust_back
  if back then do
    let (s1, o1) ← send_stop_if_necessary c s joy_msg c.axis_adjust_back
    let a ← joy_msg.axes[toSizeT c.axis_adjust_back]?
    let o2 ←
      if a > 0 then sendAdjustSteeringMsg c joy_msg ADJUST_WHEEL_BL
      else if a < 0 then sendAdjustSteeringMsg c joy_msg ADJUST_WHEEL_BR
      else pure []
    pure (s1, o1 ++ o2)
  else
    if !s.sent_disable_msg then
      pure ({ s with sent_disable_msg := true }, [Msg.cmd_vel Twist.zero])
    else pure (s, [])

/-! ## Reading a snapshot -/

/-- The button at `index` is pressed: `index`, as a `size_t`, is inside `buttons` and the
value there is nonzero. -/
def pressed (joy_msg : Joy) (index : Int) : Prop :=
  toSizeT index < joy_msg.buttons.length ∧ joy_msg.buttons.getD (toSizeT index) 0 ≠ 0

instance (joy_msg : Joy) (index : Int) : Decidable (pressed joy_msg index) := by
  unfold pressed; infer_instance

/-- The value of the axis at `index`, and `0` when `index` is outside `axes`. -/
def axisVal (joy_msg : Joy) (index : Int) : ℚ := joy_msg.axes.getD (toSizeT index) 0

/-- The axis at `index` is inside `axes`. -/
def axisInRange (joy_msg : Joy) (index : Int) : Prop := toSizeT index < joy_msg.axes.length

instance (joy_msg : Joy) (index : Int) : Decidable (axisInRange joy_msg index) := by
  unfold axisInRange; infer_instance

/-- The adjust axis at `index` is deflected: inside `axes` and nonzero. -/
def nudged (joy_msg : Joy) (index : Int) : Prop :=
  axisInRange joy_msg index ∧ axisVal joy_msg index ≠ 0

instance (joy_msg : Joy) (index : Int) : Decidable (nudged joy_msg index) := by
  unfold nudged; infer_instance

/-- The branch of the `if`/`else if` chain of `joyCallback` that a snapshot takes. -/
inductive Branch where
  | drive | horiz | twist | front | back | idle
  deriving DecidableEq

/-- The branch taken by `joyCallback`, first matching condition first. -/
def resolve (c : Config) (joy_msg : Joy) : Branch :=
  if pressed joy_msg c.enable_button then Branch.drive
  else if pressed joy_msg c.enable_horiz_button then Branch.horiz
  else if pressed joy_msg c.enable_twist_button then Branch.twist
  else if nudged joy_msg c.axis_adjust_front then Branch.front
  else if nudged joy_msg c.axis_adjust_back then Branch.back
  else Branch.idle

/-- The resolved mode of the spec: `None`, `Drive`, `Horiz` or `Twist`. -/
inductive Mode where
  | none | drive | horiz | twist
  deriving DecidableEq

/-- The mode of a branch: the two nudge branches and the idle branch have mode `None`. -/
def Branch.mode : Branch → Mode
  | Branch.drive => Mode.drive
  | Branch.horiz => Mode.horiz
  | Branch.twist => Mode.twist
  | _ => Mode.none

/-- The enable-button index of a mode branch (and the adjust-axis index of a nudge
branch): the value handed to `send_stop_if_necessary`. -/
def Branch.index (c : Config) : Branch → Option Int
  | Branch.drive => some c.enable_button
  | Branch.horiz => some c.enable_horiz_button
  | Branch.twist => some c.enable_twist_button
  | Branch.front => some c.axis_adjust_front
  | Branch.back => some c.axis_adjust_back
  | Branch.idle => none

/-- The all-wheel code published on a transition into a mode. -/
def Mode.wheel : Mode → Int
  | Mode.drive => ADJUST_WHEEL_ALL_STRAIGHT
  | Mode.horiz => ADJUST_WHEEL_ALL_HORIZ
  | Mode.twist => ADJUST_WHEEL_ALL_TWIST
  | Mode.none => ADJUST_WHEEL_NONE

/-- The value `getVal` returns, with the read of `axes` made total. -/
def scaled (joy_msg : Joy) (axis_map : String → Option Int) (scale_map : String → Option ℚ)
    (fieldname : String) : ℚ :=
  match axis_map fieldname, scale_map fieldname with
  | some i, some k =>
    if joy_msg.axes.length ≤ toSizeT i then 0 else roundDouble (axisVal joy_msg i * k)
  | _, _ => 0

/-- The velocity `sendCmdVelMsg` publishes. -/
def scaledTwist (c : Config) (joy_msg : Joy) (which_map : String) : Twist :=
  { linear_x := scaled joy_msg c.axis_linear_map (c.scale_linear_map which_map) "x",
    linear_y := scaled joy_msg c.axis_linear_map (c.scale_linear_map which_map) "y",
    linear_z := scaled joy_msg c.axis_linear_map (c.scale_linear_map which_map) "z",
    angular_x := scaled joy_msg c.axis_angular_map (c.scale_angular_map which_map) "roll",
    angular_y := scaled joy_msg c.axis_angular_map (c.scale_angular_map which_map) "pitch",
    angular_z := scaled joy_msg c.axis_angular_map (c.scale_angular_map which_map) "yaw" }

/-- The wheel code `sendAdjustSteeringMsg` arrives at for a single-wheel code, with the
read of the steering-delta axis made total. -/
def qualified (c : Config) (joy_msg : Joy) (wheel : Int) : Int :=
  if axisInRange joy_msg c.axis_adjust_steering then
    if axisVal joy_msg c.axis_adjust_steering < -(1 / 2) then -1 * wheel
    else if axisVal joy_msg c.axis_adjust_steering > 1 / 2 then wheel
    else ADJUST_WHEEL_NONE
  else wheel

/-- The all-wheel messages `send_stop_if_necessary` publishes before the zero velocity. -/
def realign (c : Config) (new_enable : Int) : List Msg :=
  if new_enable = c.enable_button then [Msg.adjust_steering ADJUST_WHEEL_ALL_STRAIGHT]
  else if new_enable = c.enable_horiz_button then [Msg.adjust_steering ADJUST_WHEEL_ALL_HORIZ]
  else if new_enable = c.enable_twist_button then [Msg.adjust_steering ADJUST_WHEEL_ALL_TWIST]
  else []

/-- The single-wheel message of a nudge: the qualified wheel code, unless it is
`ADJUST_WHEEL_NONE`. -/
def nudgeMsgs (c : Config) (joy_msg : Joy) (wheel : Int) : List Msg :=
  if qualified c joy_msg wheel ≠ 0 then [Msg.adjust_steering (qualified c joy_msg wheel)] else []

/-! ## Vocabulary of the properties -/

/-- An index that is a non-negative `int`. -/
def validIndex (i : Int) : Prop := 0 ≤ i ∧ i < 2 ^ 31

instance (i : Int) : Decidable (validIndex i) := by
  unfold validIndex; infer_instance

/-- An index that is an `int` (32 bits, signed). -/
def isInt (i : Int) : Prop := -(2 ^ 31) ≤ i ∧ i < 2 ^ 31

instance (i : Int) : Decidable (isInt i) := by
  unfold isInt; infer_instance

/-- The snapshot with the button at `index` released. -/
def clearButton (joy_msg : Joy) (index : Int) : Joy :=
  { joy_msg with buttons := joy_msg.buttons.set (toSizeT index) 0 }

/-- The field `v` computed for the channel `fieldname` is the `double` product of the axis
value and the scale (the exact product rounded to `double`), whenever the channel has a
scale and an axis index that is inside `axes`. -/
def channelScaled (joy_msg : Joy) (axis_map : String → Option Int)
    (scale_map : String → Option ℚ) (fieldname : String) (v : ℚ) : Prop :=
  ∀ i k, axis_map fieldname = some i → scale_map fieldname = some k →
    validIndex i → i < joy_msg.axes.length →
    ∃ a, joy_msg.axes[i.toNat]? = some a ∧ v = roundDouble (a * k)

/-- The channel `fieldname` has no axis index, or no scale, or an `int` axis index that is
negative or not below the number of axes of the snapshot. -/
def channelAbsent (joy_msg : Joy) (axis_map : String → Option Int)
    (scale_map : String → Option ℚ) (fieldname : String) : Prop :=
  axis_map fieldname = none ∨ scale_map fieldname = none
    ∨ ∃ i, axis_map fieldname = some i ∧ isInt i ∧ (i < 0 ∨ (joy_msg.axes.length : Int) ≤ i)

/-- The `int` index `i` is negative or not below the length `n` of the array it indexes. -/
def indexOutside (n : Nat) (i : Int) : Prop := i < 0 ∨ (n : Int) ≤ i

instance (n : Nat) (i : Int) : Decidable (indexOutside n i) := by
  unfold indexOutside; infer_instance

/-- The evaluation ends with the `SteeringAdjust` `code`, and every `SteeringAdjust`
published before it is an all-wheel one (5, 6 or 7). -/
def emitsWheel (c : Config) (s : State) (joy_msg : Joy) (code : Int) : Prop :=
  ∃ s1 pre, joyCallback c s joy_msg = some (s1, pre ++ [Msg.adjust_steering code])
    ∧ ∀ w, Msg.adjust_steering w ∈ pre → w = 5 ∨ w = 6 ∨ w = 7

/-- The evaluation selects `wheel`: it ends with `wheel` when the steering-delta value is
above 0.5 and with `-wheel` when it is below -0.5. -/
def selectsWheel (c : Config) (s : State) (joy_msg : Joy) (wheel : Int) : Prop :=
  (axisVal joy_msg c.axis_adjust_steering > 1 / 2 → emitsWheel c s joy_msg wheel)
    ∧ (axisVal joy_msg c.axis_adjust_steering < -(1 / 2) → emitsWheel c s joy_msg (-wheel))

/-! ## Sample inputs -/

/-- A configuration with three enable buttons (0, 1, 2), the adjust axes 3 and 4, the
steering-delta axis 5, and the constructor's default linear channel: `x` on axis 1 at
scale 0.5. -/
def sampleConfig : Config :=
  { enable_button := 0, enable_horiz_button := 1, enable_twist_button := 2,
    axis_adjust_front := 3, axis_adjust_back := 4, axis_adjust_steering := 5,
    axis_linear_map := fun n => if n = "x" then some 1 else none,
    scale_linear_map := fun w n => if w = "normal" ∧ n = "x" then some (1 / 2) else none,
    axis_angular_map := fun _ => none,
    scale_angular_map := fun _ _ => none }

/-- A snapshot with the drive button held and the `x` stick at 0.75. -/
def driveJoy : Joy := { axes := [0, 3 / 4, 0, 0, 0, 0], buttons := [1, 0, 0] }

/-- A snapshot with nothing held and every axis centred. -/
def idleJoy : Joy := { axes := [0, 0, 0, 0, 0, 0], buttons := [0, 0, 0] }

/-- A snapshot with the front adjust axis pushed and the steering-delta axis at 1. -/
def frontJoy : Joy := { axes := [0, 0, 0, 1, 0, 1], buttons := [0, 0, 0] }

/-- A snapshot with five axes, too few for the steering-delta axis 5 of `sampleConfig`,
and the front adjust axis pushed. -/
def shortFrontJoy : Joy := { axes := [0, 0, 0, 1, 0], buttons := [0, 0, 0] }

/-- The snapshot `shortFrontJoy` with a sixth axis, the steering-delta axis, at 0. -/
def zeroDeltaFrontJoy : Joy := { axes := [0, 0, 0, 1, 0, 0], buttons := [0, 0, 0] }

/-- A snapshot with the front axis centred, the back adjust axis pulled to -1 and the
steering-delta axis at -1. -/
def backJoy : Joy := { axes := [0, 0, 0, 0, -1, -1], buttons := [0, 0, 0] }

/-- A snapshot with both adjust axes pushed and the steering-delta axis at 1. -/
def bothJoy : Joy := { axes := [0, 0, 0, 1, 1, 1], buttons := [0, 0, 0] }

/-- The `float` nearest to 0.8, which is 13421773 / 2^24 = 0.800000011920928955078125. -/
def float08 : ℚ := 13421773 / 16777216

/-- The `float` nearest to 0.3, which is 5033165 / 2^24. -/
def float03 : ℚ := 5033165 / 16777216

/-- The `double` nearest to 0.1, which is 3602879701896397 / 2^55. -/
def double01 : ℚ := 3602879701896397 / 36028797018963968

/-- The snapshot of the scale scenario, drive button held: `axes` is `[0, 0.8]` as far as
a `float32[]` can hold it, that is `[0, float08]`. -/
def scenarioJoy : Joy := { axes := [0, float08], buttons := [1, 0, 0] }

/-- The velocity that `sampleConfig` scales out of `driveJoy`. -/
def sampleTwist : Twist := ⟨3 / 8, 0, 0, 0, 0, 0⟩

/-- The configuration `sampleConfig` with the `x` channel moved to axis 5. -/
def farConfig : Config :=
  { sampleConfig with axis_linear_map := fun n => if n = "x" then some 5 else none }

/-- A snapshot with three axes and the drive button held. -/
def threeAxesJoy : Joy := { axes := [1, 1, 1], buttons := [1, 0, 0] }

/-- A configuration whose front adjust axis has the number of the drive enable button:
buttons 0 (drive) and 1 (horiz), twist and the back axis disabled, front adjust axis 0,
steering-delta axis 1. -/
def collideConfig : Config :=
  { enable_button := 0, enable_horiz_button := 1, enable_twist_button := -1,
    axis_adjust_front := 0, axis_adjust_back := -1, axis_adjust_steering := 1,
    axis_linear_map := fun n => if n = "x" then some 1 else none,
    scale_linear_map := fun w n => if w = "normal" ∧ n = "x" then some (1 / 2) else none,
    axis_angular_map := fun _ => none,
    scale_angular_map := fun _ _ => none }

/-- A snapshot for `collideConfig` with the horiz button held and the axes centred. -/
def collideHorizJoy : Joy := { axes := [0, 0], buttons := [0, 1] }

/-- A snapshot for `collideConfig` with no button held, the front adjust axis at 1 and the
steering-delta axis at 0. -/
def collideNudgeJoy : Joy := { axes := [1, 0], buttons := [0, 0] }

/-! ## Rounding -/

theorem roundHalfEven_intCast (n : Int) : roundHalfEven (n : ℚ) = n := by
  simp [roundHalfEven]

theorem roundHalfEven_down (q : ℚ) (f : Int) (h1 : (f : ℚ) ≤ q) (h2 : q < f + 1 / 2) :
    roundHalfEven q = f := by
  have hf : ⌊q⌋ = f := Int.floor_eq_iff.mpr ⟨h1, by linarith⟩
  unfold roundHalfEven
  rw [hf, if_pos (by linarith)]

theorem roundHalfEven_up (q : ℚ) (f : Int) (h1 : (f : ℚ) + 1 / 2 < q) (h2 : q < f + 1) :
    roundHalfEven q = f + 1 := by
  have hf : ⌊q⌋ = f := Int.floor_eq_iff.mpr ⟨by linarith, h2⟩
  unfold roundHalfEven
  rw [hf, if_neg (by linarith), if_pos (by linarith)]

theorem roundHalfEven_tie (f : Int) :
    roundHalfEven ((f : ℚ) + 1 / 2) = if f % 2 = 0 then f else f + 1 := by
  have hf : ⌊(f : ℚ) + 1 / 2⌋ = f := Int.floor_eq_iff.mpr ⟨by linarith, by linarith⟩
  unfold roundHalfEven
  rw [hf, if_neg (by linarith), if_neg (by linarith)]

theorem roundHalfEven_ties :
    roundHalfEven (5 / 2) = 2 ∧ roundHalfEven (7 / 2) = 4 ∧ roundHalfEven (-5 / 2) = -2 := by
  refine ⟨?_, ?_, ?_⟩
  · have h := roundHalfEven_tie 2
    norm_num at h
    exact h
  · have h := roundHalfEven_tie 3
    norm_num at h
    exact h
  · have h := roundHalfEven_tie (-3)
    norm_num at h
    rw [neg_div]
    exact h

theorem ulpExp_eq (prec : Nat) (emin e : Int) (x : ℚ)
    (hlo : (2 : ℚ) ^ (e + ((prec : Int) - 1)) ≤ |x|) (hhi : |x| < (2 : ℚ) ^ (e + prec))
    (he : emin ≤ e) : ulpExp prec emin x = e := by
  have hpos : 0 < |x| := lt_of_lt_of_le (by positivity) hlo
  have h1 : e + ((prec : Int) - 1) ≤ Int.log 2 |x| :=
    (Int.zpow_le_iff_le_log (by norm_num) hpos).mp (by exact_mod_cast hlo)
  have h2 : Int.log 2 |x| < e + prec :=
    (Int.lt_zpow_iff_log_lt (by norm_num) hpos).mp (by exact_mod_cast hhi)
  unfold ulpExp
  omega

theorem roundBinary_eq (prec : Nat) (emin e m : Int) (x : ℚ)
    (hlo : (2 : ℚ) ^ (e + ((prec : Int) - 1)) ≤ |x|) (hhi : |x| < (2 : ℚ) ^ (e + prec))
    (he : emin ≤ e) (hm : roundHalfEven (x / 2 ^ e) = m) :
    roundBinary prec emin x = m * 2 ^ e := by
  unfold roundBinary
  rw [ulpExp_eq prec emin e x hlo hhi he, hm]

theorem roundBinary_exact (prec : Nat) (emin e m : Int) (x : ℚ)
    (hlo : (2 : ℚ) ^ (e + ((prec : Int) - 1)) ≤ |x|) (hhi : |x| < (2 : ℚ) ^ (e + prec))
    (he : emin ≤ e) (hx : x = m * 2 ^ e) : roundBinary prec emin x = x := by
  have hq : x / 2 ^ e = (m : ℚ) := by
    rw [hx, mul_div_assoc, div_self (zpow_ne_zero e (by norm_num)), mul_one]
  rw [roundBinary_eq prec emin e m x hlo hhi he (by rw [hq, roundHalfEven_intCast]), ← hx]

theorem roundDouble_zero : roundDouble 0 = 0 := by
  simp [roundDouble, roundBinary, roundHalfEven]

theorem roundDouble_three_eighths : roundDouble (3 / 8) = 3 / 8 := by
  unfold roundDouble
  exact roundBinary_exact 53 (-1074) (-54) (3 * 2 ^ 51) (3 / 8)
    (by norm_num [abs_of_pos]) (by norm_num [abs_of_pos]) (by norm_num) (by norm_num)

theorem roundDouble_half_float08 : roundDouble (float08 * (1 / 2)) = 13421773 / 33554432 := by
  unfold roundDouble float08
  rw [roundBinary_exact 53 (-1074) (-54) (13421773 * 2 ^ 29) _
    (by norm_num [abs_of_pos]) (by norm_num [abs_of_pos]) (by norm_num) (by norm_num)]
  norm_num

theorem roundDouble_float08_inv : roundDouble (float08 * 2⁻¹) = 13421773 / 33554432 := by
  rw [← one_div]
  exact roundDouble_half_float08

theorem roundFloat_four_fifths : roundFloat (4 / 5) = float08 := by
  unfold roundFloat float08
  rw [roundBinary_eq 24 (-149) (-24) 13421773 (4 / 5) (by norm_num [abs_of_pos])
    (by norm_num [abs_of_pos]) (by norm_num)
    (by
      have h := roundHalfEven_up (4 / 5 / 2 ^ (-24 : Int)) 13421772 (by norm_num) (by norm_num)
      simpa using h)]
  norm_num

theorem roundFloat_three_tenths : roundFloat (3 / 10) = float03 := by
  unfold roundFloat float03
  rw [roundBinary_eq 24 (-149) (-25) 10066330 (3 / 10) (by norm_num [abs_of_pos])
    (by norm_num [abs_of_pos]) (by norm_num)
    (by
      have h := roundHalfEven_up (3 / 10 / 2 ^ (-25 : Int)) 10066329 (by norm_num)
        (by norm_num)
      simpa using h)]
  norm_num

theorem roundDouble_tenth : roundDouble (1 / 10) = double01 := by
  unfold roundDouble double01
  rw [roundBinary_eq 53 (-1074) (-56) 7205759403792794 (1 / 10) (by norm_num [abs_of_pos])
    (by norm_num [abs_of_pos]) (by norm_num)
    (by
      have h := roundHalfEven_up (1 / 10 / 2 ^ (-56 : Int)) 7205759403792793 (by norm_num)
        (by norm_num)
      simpa using h)]
  norm_num

theorem roundDouble_two_fifths : roundDouble (2 / 5) = 3602879701896397 / 9007199254740992 := by
  unfold roundDouble
  rw [roundBinary_eq 53 (-1074) (-54) 7205759403792794 (2 / 5) (by norm_num [abs_of_pos])
    (by norm_num [abs_of_pos]) (by norm_num)
    (by
      have h := roundHalfEven_up (2 / 5 / 2 ^ (-54 : Int)) 7205759403792793 (by norm_num)
        (by norm_num)
      simpa using h)]
  norm_num

theorem roundDouble_float03_double01 :
    roundDouble (float03 * double01) = 1006633 / 33554432 := by
  unfold roundDouble float03 double01
  rw [roundBinary_eq 53 (-1074) (-58) 8646911628148736 _ (by norm_num [abs_of_pos])
    (by norm_num [abs_of_pos]) (by norm_num)
    (roundHalfEven_down _ 8646911628148736 (by norm_num) (by norm_num))]
  norm_num

/-! ## The source functions never fail -/

theorem toInt16_of_small (i : Int) (h1 : -(2 ^ 15) ≤ i) (h2 : i < 2 ^ 15) : toInt16 i = i := by
  unfold toInt16
  rw [Int.emod_eq_of_lt (by omega) (by omega)]
  omega

theorem getElem?_eq_getD {α : Type} (l : List α) (n : Nat) (d : α) (h : n < l.length) :
    l[n]? = some (l.getD n d) := by
  simp [List.getD, List.getElem?_eq_getElem h]

theorem buttonCond_eq (joy_msg : Joy) (index : Int) :
    buttonCond joy_msg index = some (decide (pressed joy_msg index)) := by
  unfold buttonCond pressed
  by_cases h : toSizeT index < joy_msg.buttons.length
  · rw [if_pos h, getElem?_eq_getD _ _ (0 : Int) h]
    simp [h]
  · simp [h]

theorem axisCond_eq (joy_msg : Joy) (index : Int) :
    axisCond joy_msg index = some (decide (nudged joy_msg index)) := by
  unfold axisCond nudged axisInRange axisVal
  by_cases h : toSizeT index < joy_msg.axes.length
  · rw [if_pos h, getElem?_eq_getD _ _ (0 : ℚ) h]
    simp [h]
  · simp [h]

theorem getVal_eq (joy_msg : Joy) (axis_map : String → Option Int)
    (scale_map : String → Option ℚ) (fieldname : String) :
    getVal joy_msg axis_map scale_map fieldname
      = some (scaled joy_msg axis_map scale_map fieldname) := by
  unfold getVal scaled axisVal
  split
  · split
    · rfl
    · rename_i h
      rw [getElem?_eq_getD _ _ (0 : ℚ) (not_le.mp h)]
      rfl
  · rfl

theorem sendCmdVelMsg_eq (c : Config) (s : State) (joy_msg : Joy) (which_map : String) :
    sendCmdVelMsg c s joy_msg which_map
      = some ({ s with sent_disable_msg := false },
          [Msg.cmd_vel (scaledTwist c joy_msg which_map)]) := by
  simp [sendCmdVelMsg, getVal_eq, scaledTwist]

theorem sendAdjustSteeringMsg_all (c : Config) (joy_msg : Joy) (wheel : Int)
    (h : wheel = 5 ∨ wheel = 6 ∨ wheel = 7) :
    sendAdjustSteeringMsg c joy_msg wheel = some [Msg.adjust_steering wheel] := by
  rcases h with h | h | h <;> subst h <;> simp [sendAdjustSteeringMsg, toInt16]

theorem sendAdjustSteeringMsg_single (c : Config) (joy_msg : Joy) (wheel : Int)
    (h5 : wheel ≠ 5) (h6 : wheel ≠ 6) (h7 : wheel ≠ 7) :
    sendAdjustSteeringMsg c joy_msg wheel
      = some (if qualified c joy_msg wheel ≠ 0
          then [Msg.adjust_steering (toInt16 (qualified c joy_msg wheel))] else []) := by
  unfold sendAdjustSteeringMsg qualified axisInRange axisVal
  by_cases h : toSizeT c.axis_adjust_steering < joy_msg.axes.length
  · rw [getElem?_eq_getD _ _ (0 : ℚ) h]
    simp [h, h5, h6, h7]
  · simp [h, h5, h6, h7]

theorem send_stop_if_necessary_eq (c : Config) (s : State) (joy_msg : Joy) (new_enable : Int) :
    send_stop_if_necessary c s joy_msg new_enable
      = some (if s.prev_enable ≠ new_enable
          then (⟨new_enable, true⟩, realign c new_enable ++ [Msg.cmd_vel Twist.zero])
          else (s, [])) := by
  unfold send_stop_if_necessary realign
  by_cases h : s.prev_enable = new_enable
  · subst h; simp
  · simp only [ne_eq, h, not_false_eq_true, if_true]
    split_ifs <;> simp [sendAdjustSteeringMsg_all]

theorem qualified_cases (c : Config) (joy_msg : Joy) (wheel : Int) :
    qualified c joy_msg wheel = wheel ∨ qualified c joy_msg wheel = -wheel
      ∨ qualified c joy_msg wheel = 0 := by
  unfold qualified
  split_ifs <;> simp

theorem sendAdjustSteeringMsg_nudge (c : Config) (joy_msg : Joy) (wheel : Int)
    (h : wheel = 1 ∨ wheel = 2 ∨ wheel = 3 ∨ wheel = 4) :
    sendAdjustSteeringMsg c joy_msg wheel = some (nudgeMsgs c joy_msg wheel) := by
  have hs : toInt16 (qualified c joy_msg wheel) = qualified c joy_msg wheel := by
    apply toInt16_of_small <;>
      rcases qualified_cases c joy_msg wheel with q | q | q <;> rw [q] <;> omega
  rw [sendAdjustSteeringMsg_single c joy_msg wheel (by omega) (by omega) (by omega), hs]
  rfl

theorem pressed_index_ne (joy_msg : Joy) (i k : Int) (hi : ¬ pressed joy_msg i)
    (hk : pressed joy_msg k) : k ≠ i := by
  rintro rfl
  exact hi hk

theorem joyCallback_drive (c : Config) (s : State) (joy_msg : Joy)
    (h : pressed joy_msg c.enable_button) :
    joyCallback c s joy_msg
      = some (⟨c.enable_button, false⟩,
          (if s.prev_enable ≠ c.enable_button
            then [Msg.adjust_steering ADJUST_WHEEL_ALL_STRAIGHT, Msg.cmd_vel Twist.zero]
            else [])
          ++ [Msg.cmd_vel (scaledTwist c joy_msg "normal")]) := by
  simp only [joyCallback, buttonCond_eq, send_stop_if_necessary_eq, sendCmdVelMsg_eq, realign]
  by_cases hp : s.prev_enable = c.enable_button <;> simp [h, hp]

theorem joyCallback_horiz (c : Config) (s : State) (joy_msg : Joy)
    (h1 : ¬ pressed joy_msg c.enable_button) (h2 : pressed joy_msg c.enable_horiz_button) :
    joyCallback c s joy_msg
      = some (⟨c.enable_horiz_button, false⟩,
          (if s.prev_enable ≠ c.enable_horiz_button
            then [Msg.adjust_steering ADJUST_WHEEL_ALL_HORIZ, Msg.cmd_vel Twist.zero]
            else [])
          ++ [Msg.cmd_vel (scaledTwist c joy_msg "normal")]) := by
  have hne := pressed_index_ne joy_msg _ _ h1 h2
  simp only [joyCallback, buttonCond_eq, send_stop_if_necessary_eq, sendCmdVelMsg_eq, realign]
  by_cases hp : s.prev_enable = c.enable_horiz_button <;> simp [h1, h2, hp, hne]

theorem joyCallback_twist (c : Config) (s : State) (joy_msg : Joy)
    (h1 : ¬ pressed joy_msg c.enable_button) (h2 : ¬ pressed joy_msg c.enable_horiz_button)
    (h3 : pressed joy_msg c.enable_twist_button) :
    joyCallback c s joy_msg
      = some (⟨c.enable_twist_button, false⟩,
          (if s.prev_enable ≠ c.enable_twist_button
            then [Msg.adjust_steering ADJUST_WHEEL_ALL_TWIST, Msg.cmd_vel Twist.zero]
            else [])
          ++ [Msg.cmd_vel (scaledTwist c joy_msg "normal")]) := by
  have hne1 := pressed_index_ne joy_msg _ _ h1 h3
  have hne2 := pressed_index_ne joy_msg _ _ h2 h3
  simp only [joyCallback, buttonCond_eq, send_stop_if_necessary_eq, sendCmdVelMsg_eq, realign]
  by_cases hp : s.prev_enable = c.enable_twist_button <;> simp [h1, h2, h3, hp, hne1, hne2]

theorem axis_read (joy_msg : Joy) (index : Int) (h : axisInRange joy_msg index) :
    joy_msg.axes[toSizeT index]? = some (axisVal joy_msg index) :=
  getElem?_eq_getD _ _ (0 : ℚ) h

theorem joyCallback_front (c : Config) (s : State) (joy_msg : Joy)
    (h1 : ¬ pressed joy_msg c.enable_button) (h2 : ¬ pressed joy_msg c.enable_horiz_button)
    (h3 : ¬ pressed joy_msg c.enable_twist_button) (h4 : nudged joy_msg c.axis_adjust_front) :
    joyCallback c s joy_msg
      = some (if s.prev_enable ≠ c.axis_adjust_front
          then (⟨c.axis_adjust_front, true⟩,
            realign c c.axis_adjust_front ++ [Msg.cmd_vel Twist.zero]
              ++ nudgeMsgs c joy_msg (if axisVal joy_msg c.axis_adjust_front > 0
                  then ADJUST_WHEEL_FL else ADJUST_WHEEL_FR))
          else (s, nudgeMsgs c joy_msg (if axisVal joy_msg c.axis_adjust_front > 0
                  then ADJUST_WHEEL_FL else ADJUST_WHEEL_FR))) := by
  have hFL := sendAdjustSteeringMsg_nudge c joy_msg ADJUST_WHEEL_FL (by simp)
  have hFR := sendAdjustSteeringMsg_nudge c joy_msg ADJUST_WHEEL_FR (by simp)
  simp only [joyCallback, buttonCond_eq, axisCond_eq, send_stop_if_necessary_eq,
    axis_read _ _ h4.1, hFL, hFR]
  by_cases hp : s.prev_enable = c.axis_adjust_front <;>
    by_cases ha : axisVal joy_msg c.axis_adjust_front > 0
  · simp [h1, h2, h3, h4, hp, ha]
  · have hn : axisVal joy_msg c.axis_adjust_front < 0 := lt_of_le_of_ne (not_lt.mp ha) h4.2
    simp [h1, h2, h3, h4, hp, ha, hn]
  · simp [h1, h2, h3, h4, hp, ha]
  · have hn : axisVal joy_msg c.axis_adjust_front < 0 := lt_of_le_of_ne (not_lt.mp ha) h4.2
    simp [h1, h2, h3, h4, hp, ha, hn]

theorem joyCallback_back (c : Config) (s : State) (joy_msg : Joy)
    (h1 : ¬ pressed joy_msg c.enable_button) (h2 : ¬ pressed joy_msg c.enable_horiz_button)
    (h3 : ¬ pressed joy_msg c.enable_twist_button) (h4 : ¬ nudged joy_msg c.axis_adjust_front)
    (h5 : nudged joy_msg c.axis_adjust_back) :
    joyCallback c s joy_msg
      = some (if s.prev_enable ≠ c.axis_adjust_back
          then (⟨c.axis_adjust_back, true⟩,
            realign c c.axis_adjust_back ++ [Msg.cmd_vel Twist.zero]
              ++ nudgeMsgs c joy_msg (if axisVal joy_msg c.axis_adjust_back > 0
                  then ADJUST_WHEEL_BL else ADJUST_WHEEL_BR))
          else (s, nudgeMsgs c joy_msg (if axisVal joy_msg c.axis_adjust_back > 0
                  then ADJUST_WHEEL_BL else ADJUST_WHEEL_BR))) := by
  have hBL := sendAdjustSteeringMsg_nudge c joy_msg ADJUST_WHEEL_BL (by simp)
  have hBR := sendAdjustSteeringMsg_nudge c joy_msg ADJUST_WHEEL_BR (by simp)
  simp only [joyCallback, buttonCond_eq, axisCond_eq, send_stop_if_necessary_eq,
    axis_read _ _ h5.1, hBL, hBR]
  by_cases hp : s.prev_enable = c.axis_adjust_back <;>
    by_cases ha : axisVal joy_msg c.axis_adjust_back > 0
  · simp [h1, h2, h3, h4, h5, hp, ha]
  · have hn : axisVal joy_msg c.axis_adjust_back < 0 := lt_of_le_of_ne (not_lt.mp ha) h5.2
    simp [h1, h2, h3, h4, h5, hp, ha, hn]
  · simp [h1, h2, h3, h4, h5, hp, ha]
  · have hn : axisVal joy_msg c.axis_adjust_back < 0 := lt_of_le_of_ne (not_lt.mp ha) h5.2
    simp [h1, h2, h3, h4, h5, hp, ha, hn]

theorem joyCallback_idle (c : Config) (s : State) (joy_msg : Joy)
    (h1 : ¬ pressed joy_msg c.enable_button) (h2 : ¬ pressed joy_msg c.enable_horiz_button)
    (h3 : ¬ pressed joy_msg c.enable_twist_button) (h4 : ¬ nudged joy_msg c.axis_adjust_front)
    (h5 : ¬ nudged joy_msg c.axis_adjust_back) :
    joyCallback c s joy_msg
      = some (if s.sent_disable_msg = false
          then (⟨s.prev_enable, true⟩, [Msg.cmd_vel Twist.zero])
          else (s, [])) := by
  simp only [joyCallback, buttonCond_eq, axisCond_eq]
  cases hs : s.sent_disable_msg <;> simp [h1, h2, h3, h4, h5, hs]

/-! ## The branch taken -/

theorem resolve_drive_iff (c : Config) (joy_msg : Joy) :
    resolve c joy_msg = Branch.drive ↔ pressed joy_msg c.enable_button := by
  unfold resolve
  split_ifs <;> simp [*]

theorem resolve_horiz_iff (c : Config) (joy_msg : Joy) :
    resolve c joy_msg = Branch.horiz
      ↔ ¬ pressed joy_msg c.enable_button ∧ pressed joy_msg c.enable_horiz_button := by
  unfold resolve
  split_ifs <;> simp [*]

theorem resolve_twist_iff (c : Config) (joy_msg : Joy) :
    resolve c joy_msg = Branch.twist
      ↔ ¬ pressed joy_msg c.enable_button ∧ ¬ pressed joy_msg c.enable_horiz_button
        ∧ pressed joy_msg c.enable_twist_button := by
  unfold resolve
  split_ifs <;> simp [*]

theorem resolve_front_iff (c : Config) (joy_msg : Joy) :
    resolve c joy_msg = Branch.front
      ↔ ¬ pressed joy_msg c.enable_button ∧ ¬ pressed joy_msg c.enable_horiz_button
        ∧ ¬ pressed joy_msg c.enable_twist_button ∧ nudged joy_msg c.axis_adjust_front := by
  unfold resolve
  split_ifs <;> simp [*]

theorem resolve_back_iff (c : Config) (joy_msg : Joy) :
    resolve c joy_msg = Branch.back
      ↔ ¬ pressed joy_msg c.enable_button ∧ ¬ pressed joy_msg c.enable_horiz_button
        ∧ ¬ pressed joy_msg c.enable_twist_button ∧ ¬ nudged joy_msg c.axis_adjust_front
        ∧ nudged joy_msg c.axis_adjust_back := by
  unfold resolve
  split_ifs <;> simp [*]

theorem resolve_idle_iff (c : Config) (joy_msg : Joy) :
    resolve c joy_msg = Branch.idle
      ↔ ¬ pressed joy_msg c.enable_button ∧ ¬ pressed joy_msg c.enable_horiz_button
        ∧ ¬ pressed joy_msg c.enable_twist_button ∧ ¬ nudged joy_msg c.axis_adjust_front
        ∧ ¬ nudged joy_msg c.axis_adjust_back := by
  unfold resolve
  split_ifs <;> simp [*]

/-! ## One statement per kind of branch -/

theorem joyCallback_of_mode (c : Config) (s : State) (joy_msg : Joy)
    (hm : (resolve c joy_msg).mode ≠ Mode.none) :
    ∃ i, (resolve c joy_msg).index c = some i
      ∧ joyCallback c s joy_msg
        = some (⟨i, false⟩,
            (if s.prev_enable ≠ i
              then [Msg.adjust_steering (resolve c joy_msg).mode.wheel, Msg.cmd_vel Twist.zero]
              else [])
            ++ [Msg.cmd_vel (scaledTwist c joy_msg "normal")]) := by
  rcases hb : resolve c joy_msg with _ | _ | _ | _ | _ | _
  · exact ⟨_, rfl, joyCallback_drive c s joy_msg ((resolve_drive_iff c joy_msg).mp hb)⟩
  · obtain ⟨h1, h2⟩ := (resolve_horiz_iff c joy_msg).mp hb
    exact ⟨_, rfl, joyCallback_horiz c s joy_msg h1 h2⟩
  · obtain ⟨h1, h2, h3⟩ := (resolve_twist_iff c joy_msg).mp hb
    exact ⟨_, rfl, joyCallback_twist c s joy_msg h1 h2 h3⟩
  all_goals exact absurd (by rw [hb]; rfl) hm

theorem joyCallback_of_nudge (c : Config) (s : State) (joy_msg : Joy)
    (hn : resolve c joy_msg = Branch.front ∨ resolve c joy_msg = Branch.back) :
    ∃ i w, (resolve c joy_msg).index c = some i ∧ (w = 1 ∨ w = 2 ∨ w = 3 ∨ w = 4)
      ∧ joyCallback c s joy_msg
        = some (if s.prev_enable ≠ i
            then (⟨i, true⟩, realign c i ++ [Msg.cmd_vel Twist.zero] ++ nudgeMsgs c joy_msg w)
            else (s, nudgeMsgs c joy_msg w)) := by
  rcases hn with hb | hb
  · obtain ⟨h1, h2, h3, h4⟩ := (resolve_front_iff c joy_msg).mp hb
    refine ⟨c.axis_adjust_front, _, by rw [hb]; rfl, ?_, joyCallback_front c s joy_msg h1 h2 h3 h4⟩
    split_ifs <;> simp
  · obtain ⟨h1, h2, h3, h4, h5⟩ := (resolve_back_iff c joy_msg).mp hb
    refine ⟨c.axis_adjust_back, _, by rw [hb]; rfl, ?_,
      joyCallback_back c s joy_msg h1 h2 h3 h4 h5⟩
    split_ifs <;> simp

theorem joyCallback_of_idle (c : Config) (s : State) (joy_msg : Joy)
    (hb : resolve c joy_msg = Branch.idle) :
    joyCallback c s joy_msg
      = some (if s.sent_disable_msg = false
          then (⟨s.prev_enable, true⟩, [Msg.cmd_vel Twist.zero])
          else (s, [])) := by
  obtain ⟨h1, h2, h3, h4, h5⟩ := (resolve_idle_iff c joy_msg).mp hb
  exact joyCallback_idle c s joy_msg h1 h2 h3 h4 h5

theorem branch_kinds (b : Branch) :
    b.mode ≠ Mode.none ∨ (b = Branch.front ∨ b = Branch.back) ∨ b = Branch.idle := by
  cases b <;> simp [Branch.mode]

theorem mem_nudgeMsgs (c : Config) (joy_msg : Joy) (w : Int) (m : Msg)
    (h : m ∈ nudgeMsgs c joy_msg w) :
    (m = Msg.adjust_steering w ∨ m = Msg.adjust_steering (-w)) ∧ w ≠ 0 := by
  unfold nudgeMsgs at h
  split_ifs at h with hq
  · rw [List.mem_singleton] at h
    rcases qualified_cases c joy_msg w with q | q | q
    · rw [q] at h hq; exact ⟨Or.inl h, hq⟩
    · rw [q] at h hq; exact ⟨Or.inr h, by omega⟩
    · exact absurd q hq
  · simp at h

theorem length_nudgeMsgs (c : Config) (joy_msg : Joy) (w : Int) :
    (nudgeMsgs c joy_msg w).length ≤ 1 := by
  unfold nudgeMsgs
  split_ifs <;> simp

theorem length_realign (c : Config) (i : Int) : (realign c i).length ≤ 1 := by
  unfold realign
  split_ifs <;> simp

theorem realign_of_ne (c : Config) (i : Int) (h1 : i ≠ c.enable_button)
    (h2 : i ≠ c.enable_horiz_button) (h3 : i ≠ c.enable_twist_button) : realign c i = [] := by
  simp [realign, h1, h2, h3]

theorem index_of_mode (c : Config) (b : Branch) (i : Int) (hm : b.mode ≠ Mode.none)
    (hi : b.index c = some i) :
    i = c.enable_button ∨ i = c.enable_horiz_button ∨ i = c.enable_twist_button := by
  cases b <;> simp [Branch.mode, Branch.index] at hm hi <;> simp [← hi]

theorem index_ne_of_mode_ne (c : Config) (j1 j2 : Joy) (i1 i2 : Int)
    (h1 : (resolve c j1).mode ≠ Mode.none) (h2 : (resolve c j2).mode ≠ Mode.none)
    (hne : (resolve c j1).mode ≠ (resolve c j2).mode)
    (hi1 : (resolve c j1).index c = some i1) (hi2 : (resolve c j2).index c = some i2) :
    i1 ≠ i2 := by
  have key : ∀ (ja jb : Joy) (ia ib : Int), (resolve c ja).mode ≠ Mode.none →
      (resolve c jb).mode ≠ Mode.none → (resolve c ja).mode ≠ (resolve c jb).mode →
      (resolve c ja).index c = some ia → (resolve c jb).index c = some ib →
      (resolve c ja = Branch.drive ∨
        (resolve c ja = Branch.horiz ∧ resolve c jb = Branch.twist)) → ia ≠ ib := by
    intro ja jb ia ib ha hb hab hia hib hord
    rcases hord with hd | ⟨hh, ht⟩
    · rcases hbb : resolve c jb with _ | _ | _ | _ | _ | _ <;>
        rw [hd] at hia hab <;> rw [hbb] at hib hab hb <;>
        simp [Branch.mode, Branch.index] at hia hib hab hb
      · obtain ⟨p1, p2⟩ := (resolve_horiz_iff c jb).mp hbb
        rw [← hia, ← hib]
        exact (pressed_index_ne jb _ _ p1 p2).symm
      · obtain ⟨p1, -, p3⟩ := (resolve_twist_iff c jb).mp hbb
        rw [← hia, ← hib]
        exact (pressed_index_ne jb _ _ p1 p3).symm
    · obtain ⟨-, p2, p3⟩ := (resolve_twist_iff c jb).mp ht
      rw [hh] at hia
      rw [ht] at hib
      simp [Branch.index] at hia hib
      rw [← hia, ← hib]
      exact (pressed_index_ne jb _ _ p2 p3).symm
  rcases hb1 : resolve c j1 with _ | _ | _ | _ | _ | _ <;>
    rcases hb2 : resolve c j2 with _ | _ | _ | _ | _ | _ <;>
    first
    | (exfalso; apply h1; simp [hb1, Branch.mode]; done)
    | (exfalso; apply h2; simp [hb2, Branch.mode]; done)
    | (exfalso; apply hne; simp [hb1, hb2]; done)
    | (refine key j1 j2 i1 i2 h1 h2 hne hi1 hi2 ?_; simp [hb1, hb2]; done)
    | (refine (key j2 j1 i2 i1 h2 h1 hne.symm hi2 hi1 ?_).symm; simp [hb1, hb2])

theorem joyCallback_idle_state (c : Config) (s : State) (joy_msg : Joy)
    (hb : resolve c joy_msg = Branch.idle) :
    ∃ s1 o1, joyCallback c s joy_msg = some (s1, o1) ∧ s1.prev_enable = s.prev_enable
      ∧ s1.sent_disable_msg = true := by
  rw [joyCallback_of_idle c s joy_msg hb]
  cases hs : s.sent_disable_msg
  · exact ⟨_, _, rfl, rfl, rfl⟩
  · exact ⟨_, _, rfl, rfl, hs⟩

/-! ## Evaluation of the sample inputs -/

theorem scaledTwist_driveJoy : scaledTwist sampleConfig driveJoy "normal" = sampleTwist := by
  have h : roundDouble (3 / 4 * (1 / 2)) = 3 / 8 := by
    rw [show (3 / 4 * (1 / 2) : ℚ) = 3 / 8 by norm_num, roundDouble_three_eighths]
  simp [scaledTwist, scaled, sampleConfig, driveJoy, axisVal, toSizeT, sampleTwist]
  rw [show (3 / 4 * 2⁻¹ : ℚ) = 3 / 4 * (1 / 2) by norm_num]
  exact h

theorem sampleTwist_ne_zero : sampleTwist ≠ Twist.zero := by
  simp [Twist.zero, sampleTwist]

/-! ## C1: safety stop on release -/

/-- C1. Safety stop on release: an idle snapshot (no enable button pressed, no adjust axis
deflected) evaluated in a freshly constructed translator (`sent_disable_msg = false`, any
`prev_enable`), or right after an evaluation that resolved to Drive, Horiz or Twist,
publishes exactly one message, the all-zero velocity, and leaves `sent_disable_msg` true. -/
theorem C1_safety_stop_on_release (c : Config) (joy_msg : Joy)
    (hidle : resolve c joy_msg = Branch.idle) :
    (∀ s : State, s.sent_disable_msg = false →
        joyCallback c s joy_msg = some (⟨s.prev_enable, true⟩, [Msg.cmd_vel Twist.zero]))
    ∧ (∀ (s : State) (prev_msg : Joy), (resolve c prev_msg).mode ≠ Mode.none →
        ∃ s1 o1, joyCallback c s prev_msg = some (s1, o1)
          ∧ joyCallback c s1 joy_msg = some (⟨s1.prev_enable, true⟩, [Msg.cmd_vel Twist.zero])) := by
  constructor
  · intro s hs
    rw [joyCallback_of_idle c s joy_msg hidle, if_pos hs]
  · intro s prev_msg hm
    obtain ⟨i, -, hi⟩ := joyCallback_of_mode c s prev_msg hm
    refine ⟨_, _, hi, ?_⟩
    rw [joyCallback_of_idle c _ joy_msg hidle, if_pos rfl]

/-- C1 at `sampleConfig`: releasing after `driveJoy` publishes the single stop. -/
theorem C1_safety_stop_on_release_witness :
    resolve sampleConfig idleJoy = Branch.idle
    ∧ joyCallback sampleConfig ⟨7, false⟩ idleJoy = some (⟨7, true⟩, [Msg.cmd_vel Twist.zero])
    ∧ ∃ s1 o1, joyCallback sampleConfig ⟨7, false⟩ driveJoy = some (s1, o1)
        ∧ joyCallback sampleConfig s1 idleJoy
          = some (⟨s1.prev_enable, true⟩, [Msg.cmd_vel Twist.zero]) :=
  ⟨by decide,
   (C1_safety_stop_on_release sampleConfig idleJoy (by decide)).1 ⟨7, false⟩ rfl,
   (C1_safety_stop_on_release sampleConfig idleJoy (by decide)).2 ⟨7, false⟩ driveJoy
     (by decide)⟩

/-! ## C2: mode transitions -/

/-- C2, as stated, fails on Drive, idle, Drive: the idle evaluation keeps `prev_enable` at
the drive button, so the second Drive evaluation (a None to Drive change of the resolved
mode) publishes only the scaled velocity: no zero velocity and no `AllStraight`. -/
theorem C2_counterexample :
    joyCallback sampleConfig ⟨7, false⟩ driveJoy
      = some (⟨0, false⟩, [Msg.adjust_steering ADJUST_WHEEL_ALL_STRAIGHT,
          Msg.cmd_vel Twist.zero, Msg.cmd_vel sampleTwist])
    ∧ joyCallback sampleConfig ⟨0, false⟩ idleJoy = some (⟨0, true⟩, [Msg.cmd_vel Twist.zero])
    ∧ joyCallback sampleConfig ⟨0, true⟩ driveJoy = some (⟨0, false⟩, [Msg.cmd_vel sampleTwist])
    ∧ (resolve sampleConfig idleJoy).mode = Mode.none
    ∧ (resolve sampleConfig driveJoy).mode = Mode.drive
    ∧ Msg.cmd_vel Twist.zero ∉ [Msg.cmd_vel sampleTwist]
    ∧ Msg.adjust_steering ADJUST_WHEEL_ALL_STRAIGHT ∉ [Msg.cmd_vel sampleTwist] := by
  refine ⟨?_, ?_, ?_, by decide, by decide, ?_, by simp⟩
  · rw [joyCallback_drive _ _ _ (by decide), scaledTwist_driveJoy]; rfl
  · rw [joyCallback_of_idle _ _ _ (by decide)]; rfl
  · rw [joyCallback_drive _ _ _ (by decide), scaledTwist_driveJoy]; rfl
  · simpa using sampleTwist_ne_zero.symm

/-- C2, amended. For two consecutive evaluations whose resolved modes differ:
* into a mode M, the second batch is the scaled velocity, preceded by M's all-wheel
  `SteeringAdjust` and a zero velocity exactly when the stored `prev_enable` differs from
  M's enable-button index; it does differ when the first evaluation resolved to another
  mode, and it is the value from before the first evaluation when that one was idle (so
  Drive, idle, Drive publishes no reset);
* from a mode to idle, the second batch is exactly one zero velocity;
* from a mode to a nudge whose adjust-axis index is none of the three enable-button
  indices, the second batch contains a zero velocity and no all-wheel `SteeringAdjust`. -/
theorem C2_mode_transition (c : Config) (s : State) (j1 j2 : Joy)
    (hne : (resolve c j1).mode ≠ (resolve c j2).mode) :
    ∃ s1 o1 s2 o2, joyCallback c s j1 = some (s1, o1) ∧ joyCallback c s1 j2 = some (s2, o2)
      ∧ (∀ i, (resolve c j2).mode ≠ Mode.none → (resolve c j2).index c = some i →
          o2 = (if s1.prev_enable ≠ i
                then [Msg.adjust_steering (resolve c j2).mode.wheel, Msg.cmd_vel Twist.zero]
                else [])
              ++ [Msg.cmd_vel (scaledTwist c j2 "normal")]
          ∧ ((resolve c j1).mode ≠ Mode.none → s1.prev_enable ≠ i)
          ∧ (resolve c j1 = Branch.idle → s1.prev_enable = s.prev_enable))
      ∧ ((resolve c j1).mode ≠ Mode.none → resolve c j2 = Branch.idle →
          o2 = [Msg.cmd_vel Twist.zero])
      ∧ (∀ i, (resolve c j1).mode ≠ Mode.none →
          resolve c j2 = Branch.front ∨ resolve c j2 = Branch.back →
          (resolve c j2).index c = some i →
          i ≠ c.enable_button → i ≠ c.enable_horiz_button → i ≠ c.enable_twist_button →
          Msg.cmd_vel Twist.zero ∈ o2
          ∧ ∀ w : Int, w = 5 ∨ w = 6 ∨ w = 7 → Msg.adjust_steering w ∉ o2) := by
  rcases branch_kinds (resolve c j1) with hm1 | hn1 | hd1
  · -- the first evaluation resolved to a mode
    obtain ⟨i1, hi1, e1⟩ := joyCallback_of_mode c s j1 hm1
    rcases branch_kinds (resolve c j2) with hm2 | hn2 | hd2
    · obtain ⟨i2, hi2, e2⟩ := joyCallback_of_mode c ⟨i1, false⟩ j2 hm2
      refine ⟨_, _, _, _, e1, e2, ?_, ?_, ?_⟩
      · intro i _ hi
        rw [hi2] at hi
        cases hi
        refine ⟨rfl, fun _ => index_ne_of_mode_ne c j1 j2 i1 i2 hm1 hm2 hne hi1 hi2, ?_⟩
        intro hidle
        rw [hidle] at hm1
        exact absurd rfl hm1
      · intro _ hidle
        rw [hidle] at hm2
        exact absurd rfl hm2
      · intro i _ hn
        rcases hn with hn | hn <;> rw [hn] at hm2 <;> exact absurd rfl hm2
    · obtain ⟨i2, w2, hi2, hw2, e2⟩ := joyCallback_of_nudge c ⟨i1, false⟩ j2 hn2
      refine ⟨_, _, _, _, e1, by rw [e2], ?_, ?_, ?_⟩
      · intro i hm
        rcases hn2 with hn | hn <;> rw [hn] at hm <;> exact absurd rfl hm
      · intro _ hidle
        rcases hn2 with hn | hn <;> rw [hn] at hidle <;> cases hidle
      · intro i _ _ hi hne1 hne2 hne3
        rw [hi2] at hi
        cases hi
        have hp : i1 ≠ i2 := by
          rcases index_of_mode c _ i1 hm1 hi1 with h | h | h <;> rw [h]
          · exact hne1.symm
          · exact hne2.symm
          · exact hne3.symm
        simp only [ne_eq, hp, not_false_eq_true, if_true, realign_of_ne c i2 hne1 hne2 hne3,
          List.nil_append]
        refine ⟨by simp, ?_⟩
        intro w hw hmem
        rw [List.singleton_append, List.mem_cons] at hmem
        rcases hmem with hmem | hmem
        · cases hmem
        · obtain ⟨hcode, -⟩ := mem_nudgeMsgs c j2 w2 _ hmem
          rcases hcode with hcode | hcode <;> injection hcode with hcode <;> omega
    · refine ⟨_, _, _, _, e1, joyCallback_of_idle c _ j2 hd2, ?_, ?_, ?_⟩
      · intro i hm
        rw [hd2] at hm
        exact absurd rfl hm
      · intro _ _
        rfl
      · intro i _ hn
        rcases hn with hn | hn <;> rw [hd2] at hn <;> cases hn
  · -- the first evaluation resolved to a nudge: the second resolves to a mode
    obtain ⟨i1, w1, hi1, hw1, e1⟩ := joyCallback_of_nudge c s j1 hn1
    have hm1 : (resolve c j1).mode = Mode.none := by
      rcases hn1 with h | h <;> rw [h] <;> rfl
    have hm2 : (resolve c j2).mode ≠ Mode.none := fun h => hne (by rw [hm1, h])
    obtain ⟨i2, hi2, e2⟩ := joyCallback_of_mode c
      (if s.prev_enable ≠ i1 then (⟨i1, true⟩, realign c i1 ++ [Msg.cmd_vel Twist.zero]
          ++ nudgeMsgs c j1 w1) else (s, nudgeMsgs c j1 w1)).1 j2 hm2
    refine ⟨_, _, _, _, e1, e2, ?_, ?_, ?_⟩
    · intro i _ hi
      rw [hi2] at hi
      cases hi
      refine ⟨rfl, fun h => absurd hm1 h, ?_⟩
      intro hidle
      rcases hn1 with h | h <;> rw [h] at hidle <;> cases hidle
    · intro h
      exact absurd hm1 h
    · intro i h
      exact absurd hm1 h
  · -- the first evaluation was idle: the second resolves to a mode
    obtain ⟨s1, o1, e1, hp1, -⟩ := joyCallback_idle_state c s j1 hd1
    have hm1 : (resolve c j1).mode = Mode.none := by rw [hd1]; rfl
    have hm2 : (resolve c j2).mode ≠ Mode.none := fun h => hne (by rw [hm1, h])
    obtain ⟨i2, hi2, e2⟩ := joyCallback_of_mode c s1 j2 hm2
    refine ⟨_, _, _, _, e1, e2, ?_, ?_, ?_⟩
    · intro i _ hi
      rw [hi2] at hi
      cases hi
      exact ⟨rfl, fun h => absurd hm1 h, fun _ => hp1⟩
    · intro h
      exact absurd hm1 h
    · intro i h
      exact absurd hm1 h

/-- C2 at `sampleConfig`, for the idle snapshot followed by `driveJoy`. -/
theorem C2_mode_transition_witness :
    (resolve sampleConfig idleJoy).mode ≠ (resolve sampleConfig driveJoy).mode
    ∧ ∃ s1 o1 s2 o2, joyCallback sampleConfig ⟨0, false⟩ idleJoy = some (s1, o1)
      ∧ joyCallback sampleConfig s1 driveJoy = some (s2, o2)
      ∧ (∀ i, (resolve sampleConfig driveJoy).mode ≠ Mode.none →
          (resolve sampleConfig driveJoy).index sampleConfig = some i →
          o2 = (if s1.prev_enable ≠ i
                then [Msg.adjust_steering (resolve sampleConfig driveJoy).mode.wheel,
                  Msg.cmd_vel Twist.zero]
                else [])
              ++ [Msg.cmd_vel (scaledTwist sampleConfig driveJoy "normal")]
          ∧ ((resolve sampleConfig idleJoy).mode ≠ Mode.none → s1.prev_enable ≠ i)
          ∧ (resolve sampleConfig idleJoy = Branch.idle →
              s1.prev_enable = (⟨0, false⟩ : State).prev_enable))
      ∧ ((resolve sampleConfig idleJoy).mode ≠ Mode.none →
          resolve sampleConfig driveJoy = Branch.idle → o2 = [Msg.cmd_vel Twist.zero])
      ∧ (∀ i, (resolve sampleConfig idleJoy).mode ≠ Mode.none →
          resolve sampleConfig driveJoy = Branch.front
            ∨ resolve sampleConfig driveJoy = Branch.back →
          (resolve sampleConfig driveJoy).index sampleConfig = some i →
          i ≠ sampleConfig.enable_button → i ≠ sampleConfig.enable_horiz_button →
          i ≠ sampleConfig.enable_twist_button →
          Msg.cmd_vel Twist.zero ∈ o2
          ∧ ∀ w : Int, w = 5 ∨ w = 6 ∨ w = 7 → Msg.adjust_steering w ∉ o2) :=
  ⟨by decide, C2_mode_transition sampleConfig ⟨0, false⟩ idleJoy driveJoy (by decide)⟩

/-! ## C3: idle suppression -/

/-- C3. Idle suppression is idempotent: of two idle snapshots evaluated one after the
other, from any state, the second publishes nothing and leaves the state as it was. -/
theorem C3_idle_suppression_idempotent (c : Config) (s : State) (j1 j2 : Joy)
    (h1 : resolve c j1 = Branch.idle) (h2 : resolve c j2 = Branch.idle) :
    ∃ s1 o1, joyCallback c s j1 = some (s1, o1) ∧ joyCallback c s1 j2 = some (s1, []) := by
  obtain ⟨s1, o1, e1, -, hs1⟩ := joyCallback_idle_state c s j1 h1
  refine ⟨s1, o1, e1, ?_⟩
  rw [joyCallback_of_idle c s1 j2 h2, hs1]
  rfl

/-- C3 at `sampleConfig`: two idle snapshots in a freshly constructed translator. -/
theorem C3_idle_suppression_idempotent_witness :
    resolve sampleConfig idleJoy = Branch.idle
    ∧ ∃ s1 o1, joyCallback sampleConfig ⟨7, false⟩ idleJoy = some (s1, o1)
        ∧ joyCallback sampleConfig s1 idleJoy = some (s1, []) :=
  ⟨by decide,
   C3_idle_suppression_idempotent sampleConfig ⟨7, false⟩ idleJoy idleJoy (by decide)
     (by decide)⟩

/-! ## C4: fixed mode priority -/

theorem toSizeT_of_validIndex (i : Int) (h : validIndex i) : toSizeT i = i.toNat := by
  obtain ⟨h0, h1⟩ := h
  unfold toSizeT
  rw [Int.emod_eq_of_lt h0 (by omega)]

theorem toSizeT_ne_of_validIndex (i k : Int) (hi : validIndex i) (hk : validIndex k)
    (hne : i ≠ k) : toSizeT i ≠ toSizeT k := by
  rw [toSizeT_of_validIndex i hi, toSizeT_of_validIndex k hk]
  obtain ⟨h0, -⟩ := hi
  obtain ⟨h0k, -⟩ := hk
  omega

theorem pressed_clearButton (joy_msg : Joy) (i k : Int) (h : toSizeT i ≠ toSizeT k) :
    pressed (clearButton joy_msg k) i ↔ pressed joy_msg i := by
  unfold pressed clearButton
  simp [List.getD_eq_getElem?_getD, List.getElem?_set_ne (Ne.symm h)]

/-- C4. Fixed mode priority, for pairwise distinct valid enable-button indices: when the
drive button is pressed the result (successor state and messages) is that of the same
snapshot with the horiz and twist buttons released, and when drive is not pressed but
horiz is, it is that of the same snapshot with the twist button released. -/
theorem C4_fixed_mode_priority (c : Config) (s : State) (joy_msg : Joy)
    (hv1 : validIndex c.enable_button) (hv2 : validIndex c.enable_horiz_button)
    (hv3 : validIndex c.enable_twist_button)
    (h12 : c.enable_button ≠ c.enable_horiz_button)
    (h13 : c.enable_button ≠ c.enable_twist_button)
    (h23 : c.enable_horiz_button ≠ c.enable_twist_button) :
    (pressed joy_msg c.enable_button →
      joyCallback c s joy_msg
        = joyCallback c s
            (clearButton (clearButton joy_msg c.enable_horiz_button) c.enable_twist_button))
    ∧ (¬ pressed joy_msg c.enable_button → pressed joy_msg c.enable_horiz_button →
      joyCallback c s joy_msg = joyCallback c s (clearButton joy_msg c.enable_twist_button)) := by
  have n12 := toSizeT_ne_of_validIndex _ _ hv1 hv2 h12
  have n13 := toSizeT_ne_of_validIndex _ _ hv1 hv3 h13
  have n23 := toSizeT_ne_of_validIndex _ _ hv2 hv3 h23
  constructor
  · intro hd
    have hd' : pressed
        (clearButton (clearButton joy_msg c.enable_horiz_button) c.enable_twist_button)
        c.enable_button := by
      rw [pressed_clearButton _ _ _ n13, pressed_clearButton _ _ _ n12]
      exact hd
    rw [joyCallback_drive c s joy_msg hd, joyCallback_drive c s _ hd']
    rfl
  · intro hd hh
    have hd' : ¬ pressed (clearButton joy_msg c.enable_twist_button) c.enable_button := by
      rw [pressed_clearButton _ _ _ n13]
      exact hd
    have hh' : pressed (clearButton joy_msg c.enable_twist_button) c.enable_horiz_button := by
      rw [pressed_clearButton _ _ _ n23]
      exact hh
    rw [joyCallback_horiz c s joy_msg hd hh, joyCallback_horiz c s _ hd' hh']
    rfl

/-- A snapshot with all three enable buttons held. -/
theorem C4_fixed_mode_priority_witness :
    validIndex sampleConfig.enable_button ∧ validIndex sampleConfig.enable_horiz_button
    ∧ validIndex sampleConfig.enable_twist_button
    ∧ pressed ⟨[0, 3 / 4], [1, 1, 1]⟩ sampleConfig.enable_button
    ∧ joyCallback sampleConfig ⟨7, false⟩ ⟨[0, 3 / 4], [1, 1, 1]⟩
        = joyCallback sampleConfig ⟨7, false⟩
            (clearButton (clearButton ⟨[0, 3 / 4], [1, 1, 1]⟩ sampleConfig.enable_horiz_button)
              sampleConfig.enable_twist_button) :=
  ⟨by decide, by decide, by decide, by decide,
   (C4_fixed_mode_priority sampleConfig ⟨7, false⟩ ⟨[0, 3 / 4], [1, 1, 1]⟩
      (by decide) (by decide) (by decide) (by decide) (by decide) (by decide)).1 (by decide)⟩

/-! ## C5: velocity scaling -/

theorem scaled_of_valid (joy_msg : Joy) (axis_map : String → Option Int)
    (scale_map : String → Option ℚ) (fieldname : String) :
    channelScaled joy_msg axis_map scale_map fieldname
      (scaled joy_msg axis_map scale_map fieldname) := by
  intro i k hi hk hv hlt
  have hlt' : i.toNat < joy_msg.axes.length := by
    obtain ⟨h0, -⟩ := hv
    omega
  refine ⟨joy_msg.axes.getD i.toNat 0, getElem?_eq_getD _ _ _ hlt', ?_⟩
  unfold scaled axisVal
  rw [hi, hk]
  simp only [toSizeT_of_validIndex i hv]
  rw [if_neg (by omega)]

/-- C5, as stated, fails on its own scenario. With `x` on axis 1 at scale 0.5 and nothing
else mapped, the snapshot's `float32` axis can hold 0.8 only as `float08`, the nearest
`float`; the Drive evaluation publishes `linear_x = float08 * 0.5 = 13421773 / 2^25`
(0.4000000059604645), which is neither the real 0.4 nor the `double` nearest to 0.4. And
a field is not the real product in general: for the axis value `float03` and the scale
`double01`, `getVal` returns 1006633 / 2^25, which differs from the exact product. -/
theorem C5_counterexample :
    roundFloat (4 / 5) = float08
    ∧ (resolve sampleConfig scenarioJoy).mode = Mode.drive
    ∧ joyCallback sampleConfig ⟨0, false⟩ scenarioJoy
      = some (⟨0, false⟩, [Msg.cmd_vel ⟨13421773 / 33554432, 0, 0, 0, 0, 0⟩])
    ∧ (13421773 / 33554432 : ℚ) ≠ 2 / 5
    ∧ (13421773 / 33554432 : ℚ) ≠ roundDouble (2 / 5)
    ∧ roundFloat (3 / 10) = float03
    ∧ roundDouble (1 / 10) = double01
    ∧ getVal ⟨[float03], []⟩ (fun _ => some 0) (fun _ => some double01) "x"
      = some (1006633 / 33554432)
    ∧ (1006633 / 33554432 : ℚ) ≠ float03 * double01 := by
  refine ⟨roundFloat_four_fifths, by decide, ?_, by norm_num, ?_, roundFloat_three_tenths,
    roundDouble_tenth, ?_, ?_⟩
  · rw [joyCallback_drive _ _ _ (by decide)]
    simp only [scaledTwist, scaled, sampleConfig, scenarioJoy, axisVal, toSizeT]
    simp [roundDouble_float08_inv]
  · rw [roundDouble_two_fifths]
    norm_num
  · rw [getVal_eq]
    simp only [scaled, axisVal, toSizeT]
    simp [roundDouble_float03_double01]
  · unfold float03 double01
    norm_num

/-- C5, amended. Velocity scaling: a snapshot resolving to Drive, Horiz or Twist
publishes, as its last message, a velocity whose six fields are the `double` products
`axes[axisIndex(ch)] * scale(ch)`, that is the exact product of the `float32` axis value
and the `double` scale rounded to the nearest `double`, in the "normal" scale set (`x`,
`y`, `z` into the linear part, `yaw`, `pitch`, `roll` into `angular_z`, `angular_y`,
`angular_x`), for each channel with a scale and an in-range axis index. With `x` on axis 1
at scale 0.5, nothing else mapped and `axes = [0, float08]` (0.8 as a `float`), that
velocity has `linear_x = 13421773 / 2^25 = 0.4000000059604645` and every other field
zero. -/
theorem C5_velocity_scaling (c : Config) (s : State) (joy_msg : Joy)
    (hm : (resolve c joy_msg).mode ≠ Mode.none) :
    ∃ s1 pre t, joyCallback c s joy_msg = some (s1, pre ++ [Msg.cmd_vel t])
      ∧ channelScaled joy_msg c.axis_linear_map (c.scale_linear_map "normal") "x" t.linear_x
      ∧ channelScaled joy_msg c.axis_linear_map (c.scale_linear_map "normal") "y" t.linear_y
      ∧ channelScaled joy_msg c.axis_linear_map (c.scale_linear_map "normal") "z" t.linear_z
      ∧ channelScaled joy_msg c.axis_angular_map (c.scale_angular_map "normal") "yaw"
          t.angular_z
      ∧ channelScaled joy_msg c.axis_angular_map (c.scale_angular_map "normal") "pitch"
          t.angular_y
      ∧ channelScaled joy_msg c.axis_angular_map (c.scale_angular_map "normal") "roll"
          t.angular_x
      ∧ (c.axis_linear_map "x" = some 1 → c.scale_linear_map "normal" "x" = some (1 / 2) →
          (∀ n, n ≠ "x" → c.axis_linear_map n = none) → (∀ n, c.axis_angular_map n = none) →
          joy_msg.axes = [0, float08] → t = ⟨13421773 / 33554432, 0, 0, 0, 0, 0⟩) := by
  obtain ⟨i, -, e⟩ := joyCallback_of_mode c s joy_msg hm
  refine ⟨_, _, _, e, scaled_of_valid _ _ _ _, scaled_of_valid _ _ _ _,
    scaled_of_valid _ _ _ _, scaled_of_valid _ _ _ _, scaled_of_valid _ _ _ _,
    scaled_of_valid _ _ _ _, ?_⟩
  intro hx hk hlin hang haxes
  have hy := hlin "y" (by decide)
  have hz := hlin "z" (by decide)
  simp only [scaledTwist, scaled, hx, hk, hy, hz, hang, axisVal, haxes]
  simp [toSizeT, roundDouble_float08_inv]

/-- The scenario of C5: `sampleConfig` maps only `x`, on axis 1 at scale 0.5, and
`scenarioJoy` has `axes = [0, float08]` with the drive button held. -/
theorem C5_velocity_scaling_witness :
    (resolve sampleConfig scenarioJoy).mode ≠ Mode.none
    ∧ ∃ s1 pre, joyCallback sampleConfig ⟨7, false⟩ scenarioJoy
        = some (s1, pre ++ [Msg.cmd_vel ⟨13421773 / 33554432, 0, 0, 0, 0, 0⟩]) := by
  refine ⟨by decide, ?_⟩
  obtain ⟨s1, pre, t, e, -, -, -, -, -, -, hex⟩ :=
    C5_velocity_scaling sampleConfig ⟨7, false⟩ scenarioJoy (by decide)
  have ht := hex rfl rfl (fun n hn => by simp [sampleConfig, hn]) (fun _ => rfl) rfl
  exact ⟨s1, pre, ht ▸ e⟩

/-! ## C6: absent and out-of-range channels -/

theorem le_toSizeT_of_absent (n : Nat) (i : Int) (hn : n < 2 ^ 63) (hi : isInt i)
    (h : i < 0 ∨ (n : Int) ≤ i) : n ≤ toSizeT i := by
  obtain ⟨h1, h2⟩ := hi
  unfold toSizeT
  omega

theorem scaled_of_absent (joy_msg : Joy) (axis_map : String → Option Int)
    (scale_map : String → Option ℚ) (fieldname : String)
    (hlen : joy_msg.axes.length < 2 ^ 63)
    (h : channelAbsent joy_msg axis_map scale_map fieldname) :
    scaled joy_msg axis_map scale_map fieldname = 0 := by
  unfold scaled
  rcases h with h | h | ⟨i, hi, hint, hout⟩
  · rw [h]
  · rw [h]
    cases axis_map fieldname <;> rfl
  · rw [hi]
    cases scale_map fieldname with
    | none => rfl
    | some k =>
      simp only
      rw [if_pos (le_toSizeT_of_absent _ i hlen hint hout)]

theorem mem_realign (c : Config) (i : Int) (m : Msg) (h : m ∈ realign c i) :
    m = Msg.adjust_steering 5 ∨ m = Msg.adjust_steering 6 ∨ m = Msg.adjust_steering 7 := by
  unfold realign at h
  split_ifs at h <;> simp at h <;> simp [h]

theorem cmd_vel_mem_joyCallback (c : Config) (s s1 : State) (joy_msg : Joy) (out : List Msg)
    (t : Twist) (h : joyCallback c s joy_msg = some (s1, out)) (ht : Msg.cmd_vel t ∈ out) :
    t = Twist.zero ∨ t = scaledTwist c joy_msg "normal" := by
  rcases branch_kinds (resolve c joy_msg) with hm | hn | hd
  · obtain ⟨i, -, e⟩ := joyCallback_of_mode c s joy_msg hm
    rw [e] at h
    cases h
    split_ifs at ht <;> simp at ht <;> tauto
  · obtain ⟨i, w, -, -, e⟩ := joyCallback_of_nudge c s joy_msg hn
    rw [e] at h
    split_ifs at h <;> cases h
    · simp only [List.mem_append, List.mem_singleton] at ht
      rcases ht with (ht | ht) | ht
      · exact absurd (mem_realign c i _ ht) (by simp)
      · left
        injection ht
      · exact absurd (mem_nudgeMsgs c joy_msg w _ ht).1 (by simp)
    · exact absurd (mem_nudgeMsgs c joy_msg w _ ht).1 (by simp)
  · rw [joyCallback_of_idle c s joy_msg hd] at h
    split_ifs at h <;> cases h <;> simp at ht
    left
    exact ht

/-- C6. Absent or out-of-range velocity channels yield zero: every evaluation returns
(there is no failure), and in every velocity it publishes, the field of a channel that has
no axis index, or no scale, or an axis index that is negative or not below the number of
axes, is exactly zero. The snapshot's `axes` is a `std::vector`, so shorter than 2^63. -/
theorem C6_absent_channel_is_zero (c : Config) (s : State) (joy_msg : Joy)
    (hlen : joy_msg.axes.length < 2 ^ 63) :
    ∃ s1 out, joyCallback c s joy_msg = some (s1, out)
      ∧ ∀ t, Msg.cmd_vel t ∈ out →
        (channelAbsent joy_msg c.axis_linear_map (c.scale_linear_map "normal") "x" →
          t.linear_x = 0)
        ∧ (channelAbsent joy_msg c.axis_linear_map (c.scale_linear_map "normal") "y" →
          t.linear_y = 0)
        ∧ (channelAbsent joy_msg c.axis_linear_map (c.scale_linear_map "normal") "z" →
          t.linear_z = 0)
        ∧ (channelAbsent joy_msg c.axis_angular_map (c.scale_angular_map "normal") "yaw" →
          t.angular_z = 0)
        ∧ (channelAbsent joy_msg c.axis_angular_map (c.scale_angular_map "normal") "pitch" →
          t.angular_y = 0)
        ∧ (channelAbsent joy_msg c.axis_angular_map (c.scale_angular_map "normal") "roll" →
          t.angular_x = 0) := by
  have htot : ∃ s1 out, joyCallback c s joy_msg = some (s1, out) := by
    rcases branch_kinds (resolve c joy_msg) with hm | hn | hd
    · obtain ⟨i, -, e⟩ := joyCallback_of_mode c s joy_msg hm
      exact ⟨_, _, e⟩
    · obtain ⟨i, w, -, -, e⟩ := joyCallback_of_nudge c s joy_msg hn
      exact ⟨_, _, e⟩
    · exact ⟨_, _, joyCallback_of_idle c s joy_msg hd⟩
  obtain ⟨s1, out, e⟩ := htot
  refine ⟨s1, out, e, ?_⟩
  intro t ht
  rcases cmd_vel_mem_joyCallback c s s1 joy_msg out t e ht with h | h
  · subst h
    exact ⟨fun _ => rfl, fun _ => rfl, fun _ => rfl, fun _ => rfl, fun _ => rfl, fun _ => rfl⟩
  · subst h
    exact ⟨scaled_of_absent _ _ _ _ hlen, scaled_of_absent _ _ _ _ hlen,
      scaled_of_absent _ _ _ _ hlen, scaled_of_absent _ _ _ _ hlen,
      scaled_of_absent _ _ _ _ hlen, scaled_of_absent _ _ _ _ hlen⟩

/-- The two scenarios of C6: `farConfig` has `x` on axis 5 and no `yaw`, and
`threeAxesJoy` has three axes. -/
theorem C6_absent_channel_is_zero_witness :
    threeAxesJoy.axes.length < 2 ^ 63
    ∧ ∃ s1 out, joyCallback farConfig ⟨7, false⟩ threeAxesJoy = some (s1, out)
        ∧ ∀ t, Msg.cmd_vel t ∈ out → t.linear_x = 0 ∧ t.angular_z = 0 := by
  have hlen : threeAxesJoy.axes.length < 2 ^ 63 := by decide
  refine ⟨hlen, ?_⟩
  obtain ⟨s1, out, e, h⟩ := C6_absent_channel_is_zero farConfig ⟨7, false⟩ threeAxesJoy hlen
  refine ⟨s1, out, e, fun t ht => ?_⟩
  obtain ⟨hx, -, -, hyaw, -, -⟩ := h t ht
  exact ⟨hx (Or.inr (Or.inr ⟨5, rfl, by decide, Or.inr (by decide)⟩)), hyaw (Or.inl rfl)⟩

/-! ## C7: steering-nudge qualification -/

/-- The qualification of a front nudge, when the front adjust-axis index is none of the
three enable-button indices: with no enable button pressed, a front axis value above zero
and the steering-delta axis in range with value `d`, the evaluation publishes
`SteeringAdjust` 2 when `d > 0.5`, -2 when `d < -0.5`, and no `SteeringAdjust` at all
when `-0.5 ≤ d ≤ 0.5`. -/
theorem front_nudge_qualification (c : Config) (s : State) (joy_msg : Joy)
    (h1 : ¬ pressed joy_msg c.enable_button) (h2 : ¬ pressed joy_msg c.enable_horiz_button)
    (h3 : ¬ pressed joy_msg c.enable_twist_button)
    (hr : axisInRange joy_msg c.axis_adjust_front)
    (ha : axisVal joy_msg c.axis_adjust_front > 0)
    (hd : axisInRange joy_msg c.axis_adjust_steering)
    (n1 : c.axis_adjust_front ≠ c.enable_button)
    (n2 : c.axis_adjust_front ≠ c.enable_horiz_button)
    (n3 : c.axis_adjust_front ≠ c.enable_twist_button) :
    ∃ s1 out, joyCallback c s joy_msg = some (s1, out)
      ∧ (axisVal joy_msg c.axis_adjust_steering > 1 / 2 →
          Msg.adjust_steering ADJUST_WHEEL_FL ∈ out)
      ∧ (axisVal joy_msg c.axis_adjust_steering < -(1 / 2) →
          Msg.adjust_steering (-ADJUST_WHEEL_FL) ∈ out)
      ∧ (-(1 / 2) ≤ axisVal joy_msg c.axis_adjust_steering →
          axisVal joy_msg c.axis_adjust_steering ≤ 1 / 2 →
          ∀ w, Msg.adjust_steering w ∉ out) := by
  have e := joyCallback_front c s joy_msg h1 h2 h3 ⟨hr, ne_of_gt ha⟩
  rw [if_pos ha, realign_of_ne c _ n1 n2 n3] at e
  have hq : nudgeMsgs c joy_msg ADJUST_WHEEL_FL
      = if axisVal joy_msg c.axis_adjust_steering < -(1 / 2) then [Msg.adjust_steering (-2)]
        else if axisVal joy_msg c.axis_adjust_steering > 1 / 2 then [Msg.adjust_steering 2]
        else [] := by
    unfold nudgeMsgs qualified
    rw [if_pos hd]
    split_ifs <;> simp_all
  have key : ∀ l : List Msg, (l = [] ∨ l = [Msg.cmd_vel Twist.zero]) →
      (axisVal joy_msg c.axis_adjust_steering > 1 / 2 →
          Msg.adjust_steering ADJUST_WHEEL_FL ∈ l ++ nudgeMsgs c joy_msg ADJUST_WHEEL_FL)
      ∧ (axisVal joy_msg c.axis_adjust_steering < -(1 / 2) →
          Msg.adjust_steering (-ADJUST_WHEEL_FL) ∈ l ++ nudgeMsgs c joy_msg ADJUST_WHEEL_FL)
      ∧ (-(1 / 2) ≤ axisVal joy_msg c.axis_adjust_steering →
          axisVal joy_msg c.axis_adjust_steering ≤ 1 / 2 →
          ∀ w, Msg.adjust_steering w ∉ l ++ nudgeMsgs c joy_msg ADJUST_WHEEL_FL) := by
    intro l hl
    refine ⟨?_, ?_, ?_⟩
    · intro hgt
      rw [hq, if_neg (by linarith), if_pos hgt]
      simp
    · intro hlt
      rw [hq, if_pos hlt]
      simp
    · intro hge hle w
      rw [hq, if_neg (not_lt.mpr hge), if_neg (not_lt.mpr hle)]
      rcases hl with hl | hl <;> simp [hl]
  by_cases hp : s.prev_enable = c.axis_adjust_front
  · rw [if_neg (by simpa using hp)] at e
    exact ⟨_, _, e, by simpa using key [] (Or.inl rfl)⟩
  · rw [if_pos hp] at e
    exact ⟨_, _, e, by simpa using key [Msg.cmd_vel Twist.zero] (Or.inr rfl)⟩

/-- C7 fails where the front adjust-axis index has the number of an enable button. In
`collideConfig` (drive button 0, front adjust axis 0), after a Horiz evaluation, the
snapshot `collideNudgeJoy` has no enable button pressed, the front axis at 1 and the
steering-delta axis in range at 0, inside [-0.5, 0.5]; `send_stop_if_necessary` compares
the axis index 0 with `enable_button` and publishes `AllStraight`. -/
theorem C7_steering_nudge_collision :
    joyCallback collideConfig ⟨7, false⟩ collideHorizJoy
      = some (⟨1, false⟩, [Msg.adjust_steering ADJUST_WHEEL_ALL_HORIZ, Msg.cmd_vel Twist.zero,
          Msg.cmd_vel Twist.zero])
    ∧ ¬ pressed collideNudgeJoy collideConfig.enable_button
    ∧ ¬ pressed collideNudgeJoy collideConfig.enable_horiz_button
    ∧ ¬ pressed collideNudgeJoy collideConfig.enable_twist_button
    ∧ axisInRange collideNudgeJoy collideConfig.axis_adjust_front
    ∧ axisVal collideNudgeJoy collideConfig.axis_adjust_front = 1
    ∧ axisInRange collideNudgeJoy collideConfig.axis_adjust_steering
    ∧ axisVal collideNudgeJoy collideConfig.axis_adjust_steering = 0
    ∧ joyCallback collideConfig ⟨1, false⟩ collideNudgeJoy
      = some (⟨0, true⟩, [Msg.adjust_steering ADJUST_WHEEL_ALL_STRAIGHT,
          Msg.cmd_vel Twist.zero]) := by
  refine ⟨?_, by decide, by decide, by decide, by decide, by decide, by decide, by decide, ?_⟩
  · rw [joyCallback_horiz _ _ _ (by decide) (by decide)]
    simp [scaledTwist, scaled, collideConfig, collideHorizJoy, axisVal, toSizeT, Twist.zero,
      roundDouble_zero]
  · rw [joyCallback_front _ _ _ (by decide) (by decide) (by decide) (by decide)]
    simp [collideConfig, realign, nudgeMsgs, qualified, axisInRange, axisVal, toSizeT,
      collideNudgeJoy]
    norm_num

/-! ## C8: number of messages of one evaluation -/

theorem joyCallback_driveJoy_fresh :
    joyCallback sampleConfig ⟨7, false⟩ driveJoy
      = some (⟨0, false⟩, [Msg.adjust_steering ADJUST_WHEEL_ALL_STRAIGHT,
          Msg.cmd_vel Twist.zero, Msg.cmd_vel sampleTwist]) := by
  rw [joyCallback_drive _ _ _ (by decide), scaledTwist_driveJoy]
  rfl

/-- C8, as stated, fails on a transition into Drive: in a translator whose `prev_enable`
is not the drive button, `driveJoy` publishes three messages, the realignment, the zero
velocity and the scaled velocity. -/
theorem C8_counterexample :
    ∃ s1 out, joyCallback sampleConfig ⟨7, false⟩ driveJoy = some (s1, out)
      ∧ out = [Msg.adjust_steering ADJUST_WHEEL_ALL_STRAIGHT, Msg.cmd_vel Twist.zero,
          Msg.cmd_vel sampleTwist]
      ∧ ¬ out.length ≤ 2 :=
  ⟨_, _, joyCallback_driveJoy_fresh, rfl, by decide⟩

/-- C8, amended. One evaluation always returns and publishes at most 3 messages (between
0 and 3). An evaluation that transitions into Drive, Horiz or Twist (the snapshot resolves
to the mode and `prev_enable` is not the mode's enable-button index) publishes exactly 3:
the all-wheel `SteeringAdjust` of the mode, the zero velocity and the scaled velocity. -/
theorem C8_command_count_bound (c : Config) (s : State) (joy_msg : Joy) :
    ∃ s1 out, joyCallback c s joy_msg = some (s1, out) ∧ out.length ≤ 3
      ∧ (resolve c joy_msg = Branch.drive → s.prev_enable ≠ c.enable_button →
          out = [Msg.adjust_steering ADJUST_WHEEL_ALL_STRAIGHT, Msg.cmd_vel Twist.zero,
            Msg.cmd_vel (scaledTwist c joy_msg "normal")] ∧ out.length = 3)
      ∧ (resolve c joy_msg = Branch.horiz → s.prev_enable ≠ c.enable_horiz_button →
          out = [Msg.adjust_steering ADJUST_WHEEL_ALL_HORIZ, Msg.cmd_vel Twist.zero,
            Msg.cmd_vel (scaledTwist c joy_msg "normal")] ∧ out.length = 3)
      ∧ (resolve c joy_msg = Branch.twist → s.prev_enable ≠ c.enable_twist_button →
          out = [Msg.adjust_steering ADJUST_WHEEL_ALL_TWIST, Msg.cmd_vel Twist.zero,
            Msg.cmd_vel (scaledTwist c joy_msg "normal")] ∧ out.length = 3) := by
  rcases hb : resolve c joy_msg with _ | _ | _ | _ | _ | _
  · have e := joyCallback_drive c s joy_msg ((resolve_drive_iff c joy_msg).mp hb)
    refine ⟨_, _, e, ?_, fun _ hp => ?_, (fun h => Branch.noConfusion h),
      (fun h => Branch.noConfusion h)⟩
    · split_ifs <;> simp
    · rw [if_pos hp]
      exact ⟨rfl, rfl⟩
  · obtain ⟨h1, h2⟩ := (resolve_horiz_iff c joy_msg).mp hb
    have e := joyCallback_horiz c s joy_msg h1 h2
    refine ⟨_, _, e, ?_, (fun h => Branch.noConfusion h), fun _ hp => ?_,
      (fun h => Branch.noConfusion h)⟩
    · split_ifs <;> simp
    · rw [if_pos hp]
      exact ⟨rfl, rfl⟩
  · obtain ⟨h1, h2, h3⟩ := (resolve_twist_iff c joy_msg).mp hb
    have e := joyCallback_twist c s joy_msg h1 h2 h3
    refine ⟨_, _, e, ?_, (fun h => Branch.noConfusion h), (fun h => Branch.noConfusion h),
      fun _ hp => ?_⟩
    · split_ifs <;> simp
    · rw [if_pos hp]
      exact ⟨rfl, rfl⟩
  · obtain ⟨i, w, -, -, e⟩ := joyCallback_of_nudge c s joy_msg (Or.inl hb)
    have l1 := length_realign c i
    have l2 := length_nudgeMsgs c joy_msg w
    by_cases hp : s.prev_enable = i
    · rw [if_neg (by simpa using hp)] at e
      exact ⟨_, _, e, by omega, (fun h => Branch.noConfusion h),
        (fun h => Branch.noConfusion h), (fun h => Branch.noConfusion h)⟩
    · rw [if_pos hp] at e
      refine ⟨_, _, e, ?_, (fun h => Branch.noConfusion h),
        (fun h => Branch.noConfusion h), (fun h => Branch.noConfusion h)⟩
      simp only [List.length_append, List.length_singleton]
      omega
  · obtain ⟨i, w, -, -, e⟩ := joyCallback_of_nudge c s joy_msg (Or.inr hb)
    have l1 := length_realign c i
    have l2 := length_nudgeMsgs c joy_msg w
    by_cases hp : s.prev_enable = i
    · rw [if_neg (by simpa using hp)] at e
      exact ⟨_, _, e, by omega, (fun h => Branch.noConfusion h),
        (fun h => Branch.noConfusion h), (fun h => Branch.noConfusion h)⟩
    · rw [if_pos hp] at e
      refine ⟨_, _, e, ?_, (fun h => Branch.noConfusion h),
        (fun h => Branch.noConfusion h), (fun h => Branch.noConfusion h)⟩
      simp only [List.length_append, List.length_singleton]
      omega
  · have e := joyCallback_of_idle c s joy_msg hb
    by_cases hs : s.sent_disable_msg = false
    · rw [if_pos hs] at e
      exact ⟨_, _, e, by simp, (fun h => Branch.noConfusion h),
        (fun h => Branch.noConfusion h), (fun h => Branch.noConfusion h)⟩
    · rw [if_neg hs] at e
      exact ⟨_, _, e, by simp, (fun h => Branch.noConfusion h),
        (fun h => Branch.noConfusion h), (fun h => Branch.noConfusion h)⟩

/-! ## C9: steering nudges and transition handling -/

/-- C9, as stated, fails without any index collision: in `sampleConfig` (front adjust axis
3, enable buttons 0, 1, 2), after a Drive evaluation, the front nudge `frontJoy` publishes
a zero velocity, stores 3 in `prev_enable` and sets `sent_disable_msg`. -/
theorem C9_counterexample :
    resolve sampleConfig frontJoy = Branch.front
    ∧ joyCallback sampleConfig ⟨0, false⟩ frontJoy
      = some (⟨3, true⟩, [Msg.cmd_vel Twist.zero, Msg.adjust_steering ADJUST_WHEEL_FL]) := by
  refine ⟨by decide, ?_⟩
  rw [joyCallback_front _ _ _ (by decide) (by decide) (by decide) (by decide)]
  simp [sampleConfig, realign, nudgeMsgs, qualified, axisInRange, axisVal, toSizeT, frontJoy]
  norm_num

/-- C9, amended. An evaluation that resolves to the front or back nudge hands the
adjust-axis index `i` to the transition handling: afterwards `prev_enable = i`. When
`prev_enable` was `i` already, the state is unchanged and no velocity is published; when
it was not, `sent_disable_msg` becomes true and exactly one velocity, all zero, is
published. In both cases no scaled velocity is published, and when `i` is none of the
three enable-button indices, no `AllStraight`, `AllHoriz` or `AllTwist` is published. -/
theorem C9_nudge_transition_handling (c : Config) (s : State) (joy_msg : Joy)
    (hn : resolve c joy_msg = Branch.front ∨ resolve c joy_msg = Branch.back) :
    ∃ i s1 out, (resolve c joy_msg).index c = some i
      ∧ joyCallback c s joy_msg = some (s1, out)
      ∧ s1.prev_enable = i
      ∧ (s.prev_enable = i → s1 = s ∧ ∀ t, Msg.cmd_vel t ∉ out)
      ∧ (s.prev_enable ≠ i → s1.sent_disable_msg = true
          ∧ out.count (Msg.cmd_vel Twist.zero) = 1)
      ∧ (∀ t, Msg.cmd_vel t ∈ out → t = Twist.zero)
      ∧ (i ≠ c.enable_button → i ≠ c.enable_horiz_button → i ≠ c.enable_twist_button →
          ∀ w : Int, w = 5 ∨ w = 6 ∨ w = 7 → Msg.adjust_steering w ∉ out) := by
  obtain ⟨i, w, hi, hw, e⟩ := joyCallback_of_nudge c s joy_msg hn
  have hnv : ∀ t, Msg.cmd_vel t ∉ nudgeMsgs c joy_msg w := fun t ht =>
    absurd (mem_nudgeMsgs c joy_msg w _ ht).1 (by simp)
  have hrv : ∀ t, Msg.cmd_vel t ∉ realign c i := fun t ht =>
    absurd (mem_realign c i _ ht) (by simp)
  have hna : ∀ k : Int, k = 5 ∨ k = 6 ∨ k = 7 → Msg.adjust_steering k ∉ nudgeMsgs c joy_msg w := by
    intro k hk hmem
    rcases (mem_nudgeMsgs c joy_msg w _ hmem).1 with h | h <;> injection h with h <;> omega
  by_cases hp : s.prev_enable = i
  · rw [if_neg (by simpa using hp)] at e
    refine ⟨i, _, _, hi, e, hp, fun _ => ⟨rfl, hnv⟩, fun h => absurd hp h, ?_, ?_⟩
    · intro t ht
      exact absurd ht (hnv t)
    · intro _ _ _ k hk
      exact hna k hk
  · rw [if_pos hp] at e
    refine ⟨i, _, _, hi, e, rfl, fun h => absurd h hp, fun _ => ⟨rfl, ?_⟩, ?_, ?_⟩
    · rw [List.count_append, List.count_append, List.count_eq_zero_of_not_mem (hrv _),
        List.count_eq_zero_of_not_mem (hnv _)]
      simp
    · intro t ht
      simp only [List.mem_append, List.mem_singleton] at ht
      rcases ht with (ht | ht) | ht
      · exact absurd ht (hrv t)
      · injection ht
      · exact absurd ht (hnv t)
    · intro n1 n2 n3 k hk
      rw [realign_of_ne c i n1 n2 n3]
      simp only [List.nil_append, List.singleton_append, List.mem_cons, not_or]
      exact ⟨by simp, hna k hk⟩

/-- C9 at `sampleConfig`: the front nudge `frontJoy` after a Drive evaluation. -/
theorem C9_nudge_transition_handling_witness :
    (resolve sampleConfig frontJoy = Branch.front ∨ resolve sampleConfig frontJoy = Branch.back)
    ∧ ∃ i s1 out, (resolve sampleConfig frontJoy).index sampleConfig = some i
      ∧ joyCallback sampleConfig ⟨0, false⟩ frontJoy = some (s1, out)
      ∧ s1.prev_enable = i
      ∧ ((⟨0, false⟩ : State).prev_enable = i → s1 = ⟨0, false⟩ ∧ ∀ t, Msg.cmd_vel t ∉ out)
      ∧ ((⟨0, false⟩ : State).prev_enable ≠ i → s1.sent_disable_msg = true
          ∧ out.count (Msg.cmd_vel Twist.zero) = 1)
      ∧ (∀ t, Msg.cmd_vel t ∈ out → t = Twist.zero)
      ∧ (i ≠ sampleConfig.enable_button → i ≠ sampleConfig.enable_horiz_button →
          i ≠ sampleConfig.enable_twist_button →
          ∀ w : Int, w = 5 ∨ w = 6 ∨ w = 7 → Msg.adjust_steering w ∉ out) :=
  ⟨Or.inl (by decide),
   C9_nudge_transition_handling sampleConfig ⟨0, false⟩ frontJoy (Or.inl (by decide))⟩

/-! ## C10: the neutral flag -/

/-- C10, as stated, fails on a steering nudge: in `sampleConfig`, a freshly constructed
translator takes the front nudge `frontJoy` twice; the second publishes the single-wheel
`SteeringAdjust` 2 alone and leaves `sent_disable_msg` true, and the idle snapshot that
follows publishes nothing. -/
theorem C10_counterexample :
    joyCallback sampleConfig ⟨7, false⟩ frontJoy
      = some (⟨3, true⟩, [Msg.cmd_vel Twist.zero, Msg.adjust_steering ADJUST_WHEEL_FL])
    ∧ joyCallback sampleConfig ⟨3, true⟩ frontJoy
      = some (⟨3, true⟩, [Msg.adjust_steering ADJUST_WHEEL_FL])
    ∧ resolve sampleConfig idleJoy = Branch.idle
    ∧ joyCallback sampleConfig ⟨3, true⟩ idleJoy = some (⟨3, true⟩, []) := by
  refine ⟨?_, ?_, by decide, ?_⟩
  · rw [joyCallback_front _ _ _ (by decide) (by decide) (by decide) (by decide)]
    simp [sampleConfig, realign, nudgeMsgs, qualified, axisInRange, axisVal, toSizeT, frontJoy]
    norm_num
  · rw [joyCallback_front _ _ _ (by decide) (by decide) (by decide) (by decide)]
    simp [sampleConfig, nudgeMsgs, qualified, axisInRange, axisVal, toSizeT, frontJoy]
    norm_num
  · rw [joyCallback_of_idle _ _ _ (by decide)]
    rfl

/-- C10, amended. The flag `sent_disable_msg` is false after every evaluation that
publishes a scaled mode velocity (one resolving to Drive, Horiz or Twist). A single-wheel
`SteeringAdjust` does not reset it: after an evaluation resolving to a nudge with
adjust-axis index `i`, the flag is true when `prev_enable` was not `i` (the zero velocity
has just been published) and is what it was otherwise; the idle snapshot evaluated next
publishes one zero velocity if the flag is false and nothing if it is true. -/
theorem C10_neutral_flag (c : Config) (s : State) (joy_msg : Joy) :
    ((resolve c joy_msg).mode ≠ Mode.none →
      ∃ s1 out, joyCallback c s joy_msg = some (s1, out)
        ∧ Msg.cmd_vel (scaledTwist c joy_msg "normal") ∈ out
        ∧ s1.sent_disable_msg = false)
    ∧ (resolve c joy_msg = Branch.front ∨ resolve c joy_msg = Branch.back →
      ∃ i s1 out, (resolve c joy_msg).index c = some i
        ∧ joyCallback c s joy_msg = some (s1, out)
        ∧ s1.sent_disable_msg = (if s.prev_enable ≠ i then true else s.sent_disable_msg)
        ∧ ∀ idle_msg, resolve c idle_msg = Branch.idle →
            joyCallback c s1 idle_msg
              = some (⟨i, true⟩,
                  if s1.sent_disable_msg = false then [Msg.cmd_vel Twist.zero] else [])) := by
  constructor
  · intro hm
    obtain ⟨i, -, e⟩ := joyCallback_of_mode c s joy_msg hm
    exact ⟨_, _, e, by simp, rfl⟩
  · intro hn
    obtain ⟨i, w, hi, -, e⟩ := joyCallback_of_nudge c s joy_msg hn
    by_cases hp : s.prev_enable = i
    · rw [if_neg (by simpa using hp)] at e
      refine ⟨i, _, _, hi, e, by rw [if_neg (by simpa using hp)], ?_⟩
      intro idle_msg hidle
      rw [joyCallback_of_idle c s idle_msg hidle]
      cases hs : s.sent_disable_msg
      · simp [hp]
      · obtain ⟨p, f⟩ := s
        simp only at hp hs
        subst hp
        subst hs
        rfl
    · rw [if_pos hp] at e
      refine ⟨i, _, _, hi, e, by rw [if_pos hp], ?_⟩
      intro idle_msg hidle
      rw [joyCallback_of_idle c _ idle_msg hidle]
      rfl

/-- C10 at `sampleConfig`: after the Drive snapshot `driveJoy` the flag is false. -/
theorem C10_neutral_flag_witness :
    (resolve sampleConfig driveJoy).mode ≠ Mode.none
    ∧ ∃ s1 out, joyCallback sampleConfig ⟨0, true⟩ driveJoy = some (s1, out)
        ∧ Msg.cmd_vel (scaledTwist sampleConfig driveJoy "normal") ∈ out
        ∧ s1.sent_disable_msg = false :=
  ⟨by decide, (C10_neutral_flag sampleConfig ⟨0, true⟩ driveJoy).1 (by decide)⟩

/-! ## C11: the steering-delta axis outside the snapshot -/

theorem not_axisInRange_of_outside (joy_msg : Joy) (i : Int)
    (hlen : joy_msg.axes.length < 2 ^ 63) (hi : isInt i)
    (hout : indexOutside joy_msg.axes.length i) : ¬ axisInRange joy_msg i := by
  unfold axisInRange
  exact not_lt.mpr (le_toSizeT_of_absent _ i hlen hi hout)

theorem nudgeMsgs_of_not_inRange (c : Config) (joy_msg : Joy) (w : Int) (hw : w ≠ 0)
    (h : ¬ axisInRange joy_msg c.axis_adjust_steering) :
    nudgeMsgs c joy_msg w = [Msg.adjust_steering w] := by
  unfold nudgeMsgs qualified
  rw [if_neg h, if_pos hw]

/-- C11, as stated, fails: in `sampleConfig` (steering-delta axis 5) the snapshot
`shortFrontJoy` has five axes, so the steering-delta index is not below the length; the
front nudge publishes the single-wheel `SteeringAdjust` 2, whereas the same snapshot with
an in-range delta of 0.0 (`zeroDeltaFrontJoy`) publishes nothing. -/
theorem C11_counterexample :
    resolve sampleConfig shortFrontJoy = Branch.front
    ∧ indexOutside shortFrontJoy.axes.length sampleConfig.axis_adjust_steering
    ∧ joyCallback sampleConfig ⟨3, true⟩ shortFrontJoy
      = some (⟨3, true⟩, [Msg.adjust_steering ADJUST_WHEEL_FL])
    ∧ joyCallback sampleConfig ⟨3, true⟩ zeroDeltaFrontJoy = some (⟨3, true⟩, []) := by
  refine ⟨by decide, by decide, ?_, ?_⟩
  · rw [joyCallback_front _ _ _ (by decide) (by decide) (by decide) (by decide)]
    simp [sampleConfig, nudgeMsgs, qualified, axisInRange, axisVal, toSizeT, shortFrontJoy]
  · rw [joyCallback_front _ _ _ (by decide) (by decide) (by decide) (by decide)]
    simp [sampleConfig, nudgeMsgs, qualified, axisInRange, axisVal, toSizeT,
      zeroDeltaFrontJoy]
    norm_num

/-- C11, amended. In a snapshot resolving to the front or back nudge whose steering-delta
index (an `int`) is negative or not below the number of axes, `sendAdjustSteeringMsg`
skips the qualification: the last message of the evaluation is the single-wheel
`SteeringAdjust` of the selected wheel with its positive code (FL or FR for the front
axis above or below zero, BL or BR for the back axis), as for an in-range delta above
0.5. -/
theorem C11_steering_delta_out_of_range (c : Config) (s : State) (joy_msg : Joy)
    (hlen : joy_msg.axes.length < 2 ^ 63) (hi : isInt c.axis_adjust_steering)
    (hout : indexOutside joy_msg.axes.length c.axis_adjust_steering) :
    (resolve c joy_msg = Branch.front →
      ∃ s1 pre, joyCallback c s joy_msg
        = some (s1, pre ++ [Msg.adjust_steering
            (if axisVal joy_msg c.axis_adjust_front > 0
              then ADJUST_WHEEL_FL else ADJUST_WHEEL_FR)]))
    ∧ (resolve c joy_msg = Branch.back →
      ∃ s1 pre, joyCallback c s joy_msg
        = some (s1, pre ++ [Msg.adjust_steering
            (if axisVal joy_msg c.axis_adjust_back > 0
              then ADJUST_WHEEL_BL else ADJUST_WHEEL_BR)])) := by
  have hd := not_axisInRange_of_outside joy_msg _ hlen hi hout
  constructor
  · intro hb
    obtain ⟨h1, h2, h3, h4⟩ := (resolve_front_iff c joy_msg).mp hb
    have e := joyCallback_front c s joy_msg h1 h2 h3 h4
    rw [nudgeMsgs_of_not_inRange c joy_msg _ (by split_ifs <;> simp) hd] at e
    by_cases hp : s.prev_enable = c.axis_adjust_front
    · rw [if_neg (by simpa using hp)] at e
      exact ⟨_, [], e⟩
    · rw [if_pos hp] at e
      exact ⟨_, _, e⟩
  · intro hb
    obtain ⟨h1, h2, h3, h4, h5⟩ := (resolve_back_iff c joy_msg).mp hb
    have e := joyCallback_back c s joy_msg h1 h2 h3 h4 h5
    rw [nudgeMsgs_of_not_inRange c joy_msg _ (by split_ifs <;> simp) hd] at e
    by_cases hp : s.prev_enable = c.axis_adjust_back
    · rw [if_neg (by simpa using hp)] at e
      exact ⟨_, [], e⟩
    · rw [if_pos hp] at e
      exact ⟨_, _, e⟩

/-- C11 at `sampleConfig` and `shortFrontJoy`, in a freshly constructed translator. -/
theorem C11_steering_delta_out_of_range_witness :
    shortFrontJoy.axes.length < 2 ^ 63 ∧ isInt sampleConfig.axis_adjust_steering
    ∧ indexOutside shortFrontJoy.axes.length sampleConfig.axis_adjust_steering
    ∧ resolve sampleConfig shortFrontJoy = Branch.front
    ∧ ∃ s1 pre, joyCallback sampleConfig ⟨7, false⟩ shortFrontJoy
        = some (s1, pre ++ [Msg.adjust_steering
            (if axisVal shortFrontJoy sampleConfig.axis_adjust_front > 0
              then ADJUST_WHEEL_FL else ADJUST_WHEEL_FR)]) :=
  ⟨by decide, by decide, by decide, by decide,
   (C11_steering_delta_out_of_range sampleConfig ⟨7, false⟩ shortFrontJoy (by decide)
      (by decide) (by decide)).1 (by decide)⟩

/-! ## C12: disabled features -/

theorem not_pressed_of_outside (joy_msg : Joy) (i : Int)
    (hlen : joy_msg.buttons.length < 2 ^ 63) (hi : isInt i)
    (hout : indexOutside joy_msg.buttons.length i) : ¬ pressed joy_msg i := by
  intro h
  exact absurd h.1 (not_lt.mpr (le_toSizeT_of_absent _ i hlen hi hout))

theorem not_nudged_of_outside (joy_msg : Joy) (i : Int)
    (hlen : joy_msg.axes.length < 2 ^ 63) (hi : isInt i)
    (hout : indexOutside joy_msg.axes.length i) : ¬ nudged joy_msg i := by
  intro h
  exact not_axisInRange_of_outside joy_msg i hlen hi hout h.1

/-- C12. Disabled features are never selected. For a snapshot whose `buttons` and `axes`
are vectors (shorter than 2^63) and any contents: an enable button whose `int` index is
negative (so -1 too) or not below the number of buttons makes the source's condition
`buttons.size() > index && buttons[index]` false, with the index converted to `size_t`,
and its mode is not the branch taken; an adjust axis whose index is negative or not below
the number of axes makes `axes.size() > index && axes[index] != 0.0` false, and its nudge
branch is not taken. -/
theorem C12_disabled_features_never_selected (c : Config) (joy_msg : Joy)
    (hb : joy_msg.buttons.length < 2 ^ 63) (ha : joy_msg.axes.length < 2 ^ 63) :
    (isInt c.enable_button → indexOutside joy_msg.buttons.length c.enable_button →
      buttonCond joy_msg c.enable_button = some false ∧ resolve c joy_msg ≠ Branch.drive)
    ∧ (isInt c.enable_horiz_button →
      indexOutside joy_msg.buttons.length c.enable_horiz_button →
      buttonCond joy_msg c.enable_horiz_button = some false
        ∧ resolve c joy_msg ≠ Branch.horiz)
    ∧ (isInt c.enable_twist_button →
      indexOutside joy_msg.buttons.length c.enable_twist_button →
      buttonCond joy_msg c.enable_twist_button = some false
        ∧ resolve c joy_msg ≠ Branch.twist)
    ∧ (isInt c.axis_adjust_front → indexOutside joy_msg.axes.length c.axis_adjust_front →
      axisCond joy_msg c.axis_adjust_front = some false ∧ resolve c joy_msg ≠ Branch.front)
    ∧ (isInt c.axis_adjust_back → indexOutside joy_msg.axes.length c.axis_adjust_back →
      axisCond joy_msg c.axis_adjust_back = some false
        ∧ resolve c joy_msg ≠ Branch.back) := by
  refine ⟨?_, ?_, ?_, ?_, ?_⟩
  · intro hi hout
    have hp := not_pressed_of_outside joy_msg _ hb hi hout
    refine ⟨by rw [buttonCond_eq, decide_eq_false hp], fun h => ?_⟩
    exact hp ((resolve_drive_iff c joy_msg).mp h)
  · intro hi hout
    have hp := not_pressed_of_outside joy_msg _ hb hi hout
    refine ⟨by rw [buttonCond_eq, decide_eq_false hp], fun h => ?_⟩
    exact hp ((resolve_horiz_iff c joy_msg).mp h).2
  · intro hi hout
    have hp := not_pressed_of_outside joy_msg _ hb hi hout
    refine ⟨by rw [buttonCond_eq, decide_eq_false hp], fun h => ?_⟩
    exact hp ((resolve_twist_iff c joy_msg).mp h).2.2
  · intro hi hout
    have hp := not_nudged_of_outside joy_msg _ ha hi hout
    refine ⟨by rw [axisCond_eq, decide_eq_false hp], fun h => ?_⟩
    exact hp ((resolve_front_iff c joy_msg).mp h).2.2.2
  · intro hi hout
    have hp := not_nudged_of_outside joy_msg _ ha hi hout
    refine ⟨by rw [axisCond_eq, decide_eq_false hp], fun h => ?_⟩
    exact hp ((resolve_back_iff c joy_msg).mp h).2.2.2.2

/-- C12 at `collideConfig`, whose twist button and back adjust axis are -1. -/
theorem C12_disabled_features_never_selected_witness :
    collideNudgeJoy.buttons.length < 2 ^ 63 ∧ collideNudgeJoy.axes.length < 2 ^ 63
    ∧ isInt collideConfig.enable_twist_button
    ∧ indexOutside collideNudgeJoy.buttons.length collideConfig.enable_twist_button
    ∧ buttonCond collideNudgeJoy collideConfig.enable_twist_button = some false
    ∧ resolve collideConfig collideNudgeJoy ≠ Branch.twist :=
  ⟨by decide, by decide, by decide, by decide,
   (C12_disabled_features_never_selected collideConfig collideNudgeJoy (by decide)
      (by decide)).2.2.1 (by decide) (by decide)⟩

/-! ## C13: reads stay inside the snapshot -/

theorem sendAdjustSteeringMsg_total (c : Config) (joy_msg : Joy) (wheel : Int) :
    ∃ o, sendAdjustSteeringMsg c joy_msg wheel = some o := by
  by_cases h : wheel = 5 ∨ wheel = 6 ∨ wheel = 7
  · exact ⟨_, sendAdjustSteeringMsg_all c joy_msg wheel h⟩
  · simp only [not_or] at h
    exact ⟨_, sendAdjustSteeringMsg_single c joy_msg wheel h.1 h.2.1 h.2.2⟩

theorem joyCallback_total (c : Config) (s : State) (joy_msg : Joy) :
    ∃ s1 out, joyCallback c s joy_msg = some (s1, out) := by
  rcases branch_kinds (resolve c joy_msg) with hm | hn | hd
  · obtain ⟨i, -, e⟩ := joyCallback_of_mode c s joy_msg hm
    exact ⟨_, _, e⟩
  · obtain ⟨i, w, -, -, e⟩ := joyCallback_of_nudge c s joy_msg hn
    exact ⟨_, _, e⟩
  · exact ⟨_, _, joyCallback_of_idle c s joy_msg hd⟩

theorem guard_bounds (n : Nat) (i : Int) (hn : n < 2 ^ 63) (hi : isInt i)
    (h : toSizeT i < n) : 0 ≤ i ∧ i < n ∧ toSizeT i = i.toNat := by
  obtain ⟨h1, h2⟩ := hi
  unfold toSizeT at h ⊢
  omega

/-- C13. Evaluation never reads outside the snapshot. With every read `v[i]` returning an
`Option`, `joyCallback` and the functions it calls (`getVal`, `sendAdjustSteeringMsg`,
`sendCmdVelMsg`, `send_stop_if_necessary`) and its two guarded conditions return a value
for every configuration (any integer indices), state and snapshot (any lengths, empty
included): the failure branch is unreachable. A read happens only under the guard
`size() > index`, which for an `int` index and a vector shorter than 2^63 gives
`0 ≤ index < size()`. -/
theorem C13_no_out_of_bounds_read (c : Config) (s : State) (joy_msg : Joy) :
    (∃ s1 out, joyCallback c s joy_msg = some (s1, out))
    ∧ (∀ axis_map scale_map fieldname, ∃ v,
        getVal joy_msg axis_map scale_map fieldname = some v)
    ∧ (∀ wheel, ∃ o, sendAdjustSteeringMsg c joy_msg wheel = some o)
    ∧ (∀ which_map, ∃ r, sendCmdVelMsg c s joy_msg which_map = some r)
    ∧ (∀ new_enable, ∃ r, send_stop_if_necessary c s joy_msg new_enable = some r)
    ∧ (∀ index, ∃ b, buttonCond joy_msg index = some b)
    ∧ (∀ index, ∃ b, axisCond joy_msg index = some b)
    ∧ (∀ (n : Nat) (i : Int), n < 2 ^ 63 → isInt i → toSizeT i < n → 0 ≤ i ∧ i < n) :=
  ⟨joyCallback_total c s joy_msg,
   fun _ _ _ => ⟨_, getVal_eq joy_msg _ _ _⟩,
   fun w => sendAdjustSteeringMsg_total c joy_msg w,
   fun _ => ⟨_, sendCmdVelMsg_eq c s joy_msg _⟩,
   fun _ => ⟨_, send_stop_if_necessary_eq c s joy_msg _⟩,
   fun _ => ⟨_, buttonCond_eq joy_msg _⟩,
   fun _ => ⟨_, axisCond_eq joy_msg _⟩,
   fun n i hn hi h => ⟨(guard_bounds n i hn hi h).1, (guard_bounds n i hn hi h).2.1⟩⟩

/-- C13 on the empty snapshot with all indices negative or large. -/
theorem C13_no_out_of_bounds_read_witness :
    ∃ s1 out, joyCallback { sampleConfig with enable_button := -1, axis_adjust_front := 9 }
      ⟨7, false⟩ ⟨[], []⟩ = some (s1, out) :=
  (C13_no_out_of_bounds_read { sampleConfig with enable_button := -1, axis_adjust_front := 9 }
    ⟨7, false⟩ ⟨[], []⟩).1

/-! ## C14: wheel selection -/

theorem nudgeMsgs_of_high (c : Config) (joy_msg : Joy) (w : Int) (hw : w ≠ 0)
    (hd : axisInRange joy_msg c.axis_adjust_steering)
    (h : axisVal joy_msg c.axis_adjust_steering > 1 / 2) :
    nudgeMsgs c joy_msg w = [Msg.adjust_steering w] := by
  have hq : qualified c joy_msg w = w := by
    unfold qualified
    rw [if_pos hd, if_neg (by linarith), if_pos h]
  unfold nudgeMsgs
  rw [hq, if_pos hw]

theorem nudgeMsgs_of_low (c : Config) (joy_msg : Joy) (w : Int) (hw : w ≠ 0)
    (hd : axisInRange joy_msg c.axis_adjust_steering)
    (h : axisVal joy_msg c.axis_adjust_steering < -(1 / 2)) :
    nudgeMsgs c joy_msg w = [Msg.adjust_steering (-w)] := by
  have hq : qualified c joy_msg w = -w := by
    unfold qualified
    rw [if_pos hd, if_pos h]
    ring
  unfold nudgeMsgs
  rw [hq, if_pos (by omega)]

theorem emitsWheel_of_eq (c : Config) (s : State) (joy_msg : Joy) (i code w : Int)
    (e : joyCallback c s joy_msg
      = some (if s.prev_enable ≠ i
          then (⟨i, true⟩, realign c i ++ [Msg.cmd_vel Twist.zero] ++ nudgeMsgs c joy_msg w)
          else (s, nudgeMsgs c joy_msg w)))
    (hq : nudgeMsgs c joy_msg w = [Msg.adjust_steering code]) :
    emitsWheel c s joy_msg code := by
  rw [hq] at e
  by_cases hp : s.prev_enable = i
  · rw [if_neg (by simpa using hp)] at e
    exact ⟨_, [], e, fun w hw => by simp at hw⟩
  · rw [if_pos hp] at e
    refine ⟨_, _, e, fun k hk => ?_⟩
    simp only [List.mem_append, List.mem_singleton] at hk
    rcases hk with hk | hk
    · rcases mem_realign c i _ hk with h | h | h <;> injection h with h <;> simp [h]
    · cases hk

theorem selectsWheel_of_eq (c : Config) (s : State) (joy_msg : Joy) (i w : Int) (hw : w ≠ 0)
    (hd : axisInRange joy_msg c.axis_adjust_steering)
    (e : joyCallback c s joy_msg
      = some (if s.prev_enable ≠ i
          then (⟨i, true⟩, realign c i ++ [Msg.cmd_vel Twist.zero] ++ nudgeMsgs c joy_msg w)
          else (s, nudgeMsgs c joy_msg w))) :
    selectsWheel c s joy_msg w :=
  ⟨fun h => emitsWheel_of_eq c s joy_msg i w w e (nudgeMsgs_of_high c joy_msg w hw hd h),
   fun h => emitsWheel_of_eq c s joy_msg i (-w) w e (nudgeMsgs_of_low c joy_msg w hw hd h)⟩

/-- C14. Wheel selection by the sign of the nudge axis. With no enable button pressed and
the steering-delta axis in range: a front adjust-axis value above zero selects FL (2) and
one below zero selects FR (1); when the front axis is not deflected (exactly zero, or
disabled), a back adjust-axis value above zero selects BL (4) and one below zero selects
BR (3). Selecting a wheel means that the evaluation ends with its code when the delta is
above 0.5 and with the negated code when the delta is below -0.5. -/
theorem C14_wheel_selection (c : Config) (s : State) (joy_msg : Joy)
    (h1 : ¬ pressed joy_msg c.enable_button) (h2 : ¬ pressed joy_msg c.enable_horiz_button)
    (h3 : ¬ pressed joy_msg c.enable_twist_button)
    (hd : axisInRange joy_msg c.axis_adjust_steering) :
    (axisInRange joy_msg c.axis_adjust_front → axisVal joy_msg c.axis_adjust_front > 0 →
      selectsWheel c s joy_msg ADJUST_WHEEL_FL)
    ∧ (axisInRange joy_msg c.axis_adjust_front → axisVal joy_msg c.axis_adjust_front < 0 →
      selectsWheel c s joy_msg ADJUST_WHEEL_FR)
    ∧ (¬ nudged joy_msg c.axis_adjust_front → axisInRange joy_msg c.axis_adjust_back →
      axisVal joy_msg c.axis_adjust_back > 0 → selectsWheel c s joy_msg ADJUST_WHEEL_BL)
    ∧ (¬ nudged joy_msg c.axis_adjust_front → axisInRange joy_msg c.axis_adjust_back →
      axisVal joy_msg c.axis_adjust_back < 0 → selectsWheel c s joy_msg ADJUST_WHEEL_BR) := by
  refine ⟨?_, ?_, ?_, ?_⟩
  · intro hr ha
    have e := joyCallback_front c s joy_msg h1 h2 h3 ⟨hr, ne_of_gt ha⟩
    rw [if_pos ha] at e
    exact selectsWheel_of_eq c s joy_msg _ _ (by simp) hd e
  · intro hr ha
    have e := joyCallback_front c s joy_msg h1 h2 h3 ⟨hr, ne_of_lt ha⟩
    rw [if_neg (not_lt.mpr (le_of_lt ha))] at e
    exact selectsWheel_of_eq c s joy_msg _ _ (by simp) hd e
  · intro h4 hr ha
    have e := joyCallback_back c s joy_msg h1 h2 h3 h4 ⟨hr, ne_of_gt ha⟩
    rw [if_pos ha] at e
    exact selectsWheel_of_eq c s joy_msg _ _ (by simp) hd e
  · intro h4 hr ha
    have e := joyCallback_back c s joy_msg h1 h2 h3 h4 ⟨hr, ne_of_lt ha⟩
    rw [if_neg (not_lt.mpr (le_of_lt ha))] at e
    exact selectsWheel_of_eq c s joy_msg _ _ (by simp) hd e

/-- C14 at `sampleConfig`: `backJoy` has the back axis at -1 and the delta at -1, so the
evaluation ends with the negated BR code. -/
theorem C14_wheel_selection_witness :
    ¬ pressed backJoy sampleConfig.enable_button
    ∧ ¬ pressed backJoy sampleConfig.enable_horiz_button
    ∧ ¬ pressed backJoy sampleConfig.enable_twist_button
    ∧ axisInRange backJoy sampleConfig.axis_adjust_steering
    ∧ emitsWheel sampleConfig ⟨7, false⟩ backJoy (-ADJUST_WHEEL_BR) :=
  ⟨by decide, by decide, by decide, by decide,
   ((C14_wheel_selection sampleConfig ⟨7, false⟩ backJoy (by decide) (by decide) (by decide)
      (by decide)).2.2.2 (by decide) (by decide)
      (by simp [axisVal, backJoy, sampleConfig, toSizeT])).2
      (by simp [axisVal, backJoy, sampleConfig, toSizeT]; norm_num)⟩

/-! ## C15: the first matching branch wins -/

theorem mode_steering_all_wheel (c : Config) (s : State) (joy_msg : Joy)
    (hm : (resolve c joy_msg).mode ≠ Mode.none) :
    ∃ s1 out, joyCallback c s joy_msg = some (s1, out)
      ∧ ∀ w, Msg.adjust_steering w ∈ out → w = 5 ∨ w = 6 ∨ w = 7 := by
  obtain ⟨i, -, e⟩ := joyCallback_of_mode c s joy_msg hm
  refine ⟨_, _, e, fun w hw => ?_⟩
  have hwheel : (resolve c joy_msg).mode.wheel = 5 ∨ (resolve c joy_msg).mode.wheel = 6
      ∨ (resolve c joy_msg).mode.wheel = 7 := by
    cases hmode : (resolve c joy_msg).mode
    · exact absurd hmode hm
    all_goals simp [Mode.wheel]
  split_ifs at hw
  · simp only [List.cons_append, List.nil_append, List.mem_cons, List.mem_singleton,
      List.mem_nil_iff, or_false] at hw
    rcases hw with hw | hw | hw
    · injection hw with hw
      rw [hw]
      exact hwheel
    · cases hw
    · cases hw
  · simp at hw

/-- C15. First matching branch wins. When any enable button is pressed (the snapshot
resolves to Drive, Horiz or Twist), every `SteeringAdjust` of the evaluation is an
all-wheel one, so none of FR, FL, BR, BL or their negations is published, whatever the
adjust axes hold. When no enable button is pressed and both adjust axes are deflected,
only the front nudge is processed: `prev_enable` becomes the front axis index and every
`SteeringAdjust` published is an all-wheel one or FL, FR or their negations, never BL, BR
or their negations. -/
theorem C15_first_matching_branch_wins (c : Config) (s : State) (joy_msg : Joy) :
    ((resolve c joy_msg).mode ≠ Mode.none →
      ∃ s1 out, joyCallback c s joy_msg = some (s1, out)
        ∧ ∀ w, Msg.adjust_steering w ∈ out → w = 5 ∨ w = 6 ∨ w = 7)
    ∧ (¬ pressed joy_msg c.enable_button → ¬ pressed joy_msg c.enable_horiz_button →
      ¬ pressed joy_msg c.enable_twist_button → nudged joy_msg c.axis_adjust_front →
      nudged joy_msg c.axis_adjust_back →
      ∃ s1 out, joyCallback c s joy_msg = some (s1, out)
        ∧ resolve c joy_msg = Branch.front
        ∧ s1.prev_enable = c.axis_adjust_front
        ∧ ∀ w, Msg.adjust_steering w ∈ out →
            w = 5 ∨ w = 6 ∨ w = 7 ∨ w = 1 ∨ w = 2 ∨ w = -1 ∨ w = -2) := by
  constructor
  · exact mode_steering_all_wheel c s joy_msg
  · intro h1 h2 h3 h4 _
    have hb : resolve c joy_msg = Branch.front :=
      (resolve_front_iff c joy_msg).mpr ⟨h1, h2, h3, h4⟩
    have e := joyCallback_front c s joy_msg h1 h2 h3 h4
    have hcode : ∀ w, Msg.adjust_steering w ∈ nudgeMsgs c joy_msg
        (if axisVal joy_msg c.axis_adjust_front > 0 then ADJUST_WHEEL_FL else ADJUST_WHEEL_FR) →
        w = 5 ∨ w = 6 ∨ w = 7 ∨ w = 1 ∨ w = 2 ∨ w = -1 ∨ w = -2 := by
      intro w hw
      obtain ⟨hw, -⟩ := mem_nudgeMsgs c joy_msg _ _ hw
      split_ifs at hw <;> rcases hw with hw | hw <;> injection hw with hw <;> simp [hw]
    by_cases hp : s.prev_enable = c.axis_adjust_front
    · rw [if_neg (by simpa using hp)] at e
      exact ⟨_, _, e, hb, hp, hcode⟩
    · rw [if_pos hp] at e
      refine ⟨_, _, e, hb, rfl, fun w hw => ?_⟩
      simp only [List.mem_append, List.mem_singleton] at hw
      rcases hw with (hw | hw) | hw
      · rcases mem_realign c _ _ hw with h | h | h <;> injection h with h <;> simp [h]
      · cases hw
      · exact hcode w hw

/-- C15 at `sampleConfig`: `bothJoy` has both adjust axes deflected. -/
theorem C15_first_matching_branch_wins_witness :
    ∃ s1 out, joyCallback sampleConfig ⟨7, false⟩ bothJoy = some (s1, out)
      ∧ resolve sampleConfig bothJoy = Branch.front
      ∧ s1.prev_enable = sampleConfig.axis_adjust_front
      ∧ ∀ w, Msg.adjust_steering w ∈ out →
          w = 5 ∨ w = 6 ∨ w = 7 ∨ w = 1 ∨ w = 2 ∨ w = -1 ∨ w = -2 :=
  (C15_first_matching_branch_wins sampleConfig ⟨7, false⟩ bothJoy).2 (by decide) (by decide)
    (by decide) (by decide) (by decide)

/-! ## C16: the transition batch -/

/-- C16. Exact transition batch and order. When the snapshot resolves to a mode M and
`prev_enable` differs from M's enable-button index, the evaluation publishes exactly three
messages, in this order: `AllStraight` (Drive), `AllHoriz` (Horiz) or `AllTwist` (Twist);
the all-zero velocity; the scaled velocity. Afterwards `prev_enable` is M's index and
`sent_disable_msg` is false. `sendAdjustSteeringMsg` publishes an all-wheel code as it is,
whatever the steering-delta axis holds. This holds for every configuration, so also for
valid, pairwise distinct enable-button indices. -/
theorem C16_transition_batch (c : Config) (s : State) (joy_msg : Joy) :
    (resolve c joy_msg = Branch.drive → s.prev_enable ≠ c.enable_button →
      joyCallback c s joy_msg
        = some (⟨c.enable_button, false⟩,
            [Msg.adjust_steering ADJUST_WHEEL_ALL_STRAIGHT, Msg.cmd_vel Twist.zero,
              Msg.cmd_vel (scaledTwist c joy_msg "normal")]))
    ∧ (resolve c joy_msg = Branch.horiz → s.prev_enable ≠ c.enable_horiz_button →
      joyCallback c s joy_msg
        = some (⟨c.enable_horiz_button, false⟩,
            [Msg.adjust_steering ADJUST_WHEEL_ALL_HORIZ, Msg.cmd_vel Twist.zero,
              Msg.cmd_vel (scaledTwist c joy_msg "normal")]))
    ∧ (resolve c joy_msg = Branch.twist → s.prev_enable ≠ c.enable_twist_button →
      joyCallback c s joy_msg
        = some (⟨c.enable_twist_button, false⟩,
            [Msg.adjust_steering ADJUST_WHEEL_ALL_TWIST, Msg.cmd_vel Twist.zero,
              Msg.cmd_vel (scaledTwist c joy_msg "normal")]))
    ∧ (∀ w, w = ADJUST_WHEEL_ALL_STRAIGHT ∨ w = ADJUST_WHEEL_ALL_HORIZ
          ∨ w = ADJUST_WHEEL_ALL_TWIST →
        sendAdjustSteeringMsg c joy_msg w = some [Msg.adjust_steering w]) := by
  refine ⟨?_, ?_, ?_, fun w hw => sendAdjustSteeringMsg_all c joy_msg w hw⟩
  · intro hb hp
    rw [joyCallback_drive c s joy_msg ((resolve_drive_iff c joy_msg).mp hb), if_pos hp]
    rfl
  · intro hb hp
    obtain ⟨h1, h2⟩ := (resolve_horiz_iff c joy_msg).mp hb
    rw [joyCallback_horiz c s joy_msg h1 h2, if_pos hp]
    rfl
  · intro hb hp
    obtain ⟨h1, h2, h3⟩ := (resolve_twist_iff c joy_msg).mp hb
    rw [joyCallback_twist c s joy_msg h1 h2 h3, if_pos hp]
    rfl

/-- C16 at `sampleConfig`: `driveJoy` in a translator whose `prev_enable` is 7. -/
theorem C16_transition_batch_witness :
    joyCallback sampleConfig ⟨7, true⟩ driveJoy
      = some (⟨sampleConfig.enable_button, false⟩,
          [Msg.adjust_steering ADJUST_WHEEL_ALL_STRAIGHT, Msg.cmd_vel Twist.zero,
            Msg.cmd_vel (scaledTwist sampleConfig driveJoy "normal")]) :=
  (C16_transition_batch sampleConfig ⟨7, true⟩ driveJoy).1 (by decide) (by decide)

/-! ## C17: steady state -/

theorem branch_eq_of_mode_eq (b1 b2 : Branch) (h : b1.mode = b2.mode)
    (hm : b1.mode ≠ Mode.none) : b1 = b2 := by
  cases b1 <;> cases b2 <;> simp [Branch.mode] at h hm ⊢

/-- C17. Steady-state mode. Of two consecutive snapshots that resolve to the same mode
(both Drive, both Horiz or both Twist), the second publishes exactly one message, the
scaled velocity of that snapshot, with no reset velocity and no `SteeringAdjust` before
it, and leaves the state as it was, with `sent_disable_msg` false. -/
theorem C17_steady_state (c : Config) (s : State) (j1 j2 : Joy)
    (hm : (resolve c j1).mode ≠ Mode.none)
    (hsame : (resolve c j1).mode = (resolve c j2).mode) :
    ∃ s1 o1, joyCallback c s j1 = some (s1, o1)
      ∧ joyCallback c s1 j2 = some (s1, [Msg.cmd_vel (scaledTwist c j2 "normal")])
      ∧ s1.sent_disable_msg = false := by
  have hb := branch_eq_of_mode_eq _ _ hsame hm
  obtain ⟨i1, hi1, e1⟩ := joyCallback_of_mode c s j1 hm
  obtain ⟨i2, hi2, e2⟩ := joyCallback_of_mode c ⟨i1, false⟩ j2 (hsame ▸ hm)
  have hi : i2 = i1 := by
    rw [← hb, hi1] at hi2
    injection hi2 with hi2
    exact hi2.symm
  subst hi
  refine ⟨_, _, e1, ?_, rfl⟩
  rw [e2, if_neg (by simp)]
  rfl

/-- C17 at `sampleConfig`: `driveJoy` twice in a freshly constructed translator. -/
theorem C17_steady_state_witness :
    (resolve sampleConfig driveJoy).mode ≠ Mode.none
    ∧ ∃ s1 o1, joyCallback sampleConfig ⟨7, false⟩ driveJoy = some (s1, o1)
      ∧ joyCallback sampleConfig s1 driveJoy
        = some (s1, [Msg.cmd_vel (scaledTwist sampleConfig driveJoy "normal")])
      ∧ s1.sent_disable_msg = false :=
  ⟨by decide, C17_steady_state sampleConfig ⟨7, false⟩ driveJoy driveJoy (by decide) rfl⟩

/-! ## C18: published steering codes -/

/-- C18. Published steering codes are well-formed: every value published on
`adjust_steering` by an evaluation is nonzero (`ADJUST_WHEEL_NONE` is never published) and
is one of -4, -3, -2, -1, 1, 2, 3, 4, 5, 6, 7; so the all-wheel codes 5, 6 and 7 are never
negated. -/
theorem C18_steering_codes_well_formed (c : Config) (s : State) (joy_msg : Joy) :
    ∃ s1 out, joyCallback c s joy_msg = some (s1, out)
      ∧ ∀ w, Msg.adjust_steering w ∈ out →
          w ≠ ADJUST_WHEEL_NONE
          ∧ (w = -4 ∨ w = -3 ∨ w = -2 ∨ w = -1 ∨ w = 1 ∨ w = 2 ∨ w = 3 ∨ w = 4
              ∨ w = 5 ∨ w = 6 ∨ w = 7) := by
  have key : ∀ w : Int, (w = 5 ∨ w = 6 ∨ w = 7) ∨ (∃ k : Int, (k = 1 ∨ k = 2 ∨ k = 3 ∨ k = 4)
      ∧ (w = k ∨ w = -k)) →
      w ≠ ADJUST_WHEEL_NONE
      ∧ (w = -4 ∨ w = -3 ∨ w = -2 ∨ w = -1 ∨ w = 1 ∨ w = 2 ∨ w = 3 ∨ w = 4
          ∨ w = 5 ∨ w = 6 ∨ w = 7) := by
    intro w hw
    refine ⟨?_, ?_⟩
    · show w ≠ 0
      rcases hw with hw | ⟨k, hk, hw⟩ <;> omega
    · rcases hw with hw | ⟨k, hk, hw⟩ <;> omega
  rcases branch_kinds (resolve c joy_msg) with hm | hn | hd
  · obtain ⟨s1, out, e, h⟩ := (mode_steering_all_wheel c s joy_msg hm)
    exact ⟨s1, out, e, fun w hw => key w (Or.inl (h w hw))⟩
  · obtain ⟨i, k, -, hk, e⟩ := joyCallback_of_nudge c s joy_msg hn
    have hcode : ∀ w, Msg.adjust_steering w ∈ nudgeMsgs c joy_msg k →
        (w = 5 ∨ w = 6 ∨ w = 7) ∨ (∃ k : Int, (k = 1 ∨ k = 2 ∨ k = 3 ∨ k = 4)
          ∧ (w = k ∨ w = -k)) := by
      intro w hw
      obtain ⟨hw, -⟩ := mem_nudgeMsgs c joy_msg _ _ hw
      refine Or.inr ⟨k, hk, ?_⟩
      rcases hw with hw | hw <;> injection hw with hw <;> simp [hw]
    by_cases hp : s.prev_enable = i
    · rw [if_neg (by simpa using hp)] at e
      exact ⟨_, _, e, fun w hw => key w (hcode w hw)⟩
    · rw [if_pos hp] at e
      refine ⟨_, _, e, fun w hw => key w ?_⟩
      simp only [List.mem_append, List.mem_singleton] at hw
      rcases hw with (hw | hw) | hw
      · left
        rcases mem_realign c _ _ hw with h | h | h <;> injection h with h <;> simp [h]
      · cases hw
      · exact hcode w hw
  · have e := joyCallback_of_idle c s joy_msg hd
    by_cases hs : s.sent_disable_msg = false
    · rw [if_pos hs] at e
      exact ⟨_, _, e, fun w hw => by simp at hw⟩
    · rw [if_neg hs] at e
      exact ⟨_, _, e, fun w hw => by simp at hw⟩

end FreightLiteTeleop
